import Mathlib

/-!
Verification of the AutoList export utilities
(`src/frontend/src/lib/exportUtils.ts`).

The repository ships two concatenated historical copies of the export
module.  The first copy (the "extended" variant, with the five optional
extension fields) is embedded here under its source names
(`exportAsJSON`, `exportAsCSV`, `exportAsHTML`, `escapeCSV`,
`escapeHTML`, ...); the second, older copy is embedded with a `v2`
suffix where it differs (`exportAsCSVv2`).

Modelling conventions:
* JavaScript strings are modelled as Lean `String` (a list of Unicode
  scalar values).
* `JSON.stringify(x, null, 2)` and `JSON.parse` are platform functions;
  they are modelled by `jsonStringify` / `jsonParse` below, following
  the ECMA-262 serialization algorithm with a two-space gap.
* `escapeHTML` in the source is implemented by DOM text-node
  serialization (`div.textContent = s; div.innerHTML`), which per the
  WHATWG HTML serialization algorithm entity-encodes only `&`, `<`,
  `>` and U+00A0 in text content — double quotes pass through verbatim.
* The ambient clock read by `new Date()` in the HTML export is threaded
  through an explicit `JsEnv` record.
* A JavaScript runtime exception (e.g. calling `.split` on
  `undefined`) is modelled by an `Option` result, `none` meaning the
  export threw.
-/

/-! ## Generic character and string helpers -/

/-- Decimal digit characters produced by JavaScript number-to-string
conversion, most significant digit first; fuel-based loop. -/
def natToCharsAux : Nat → Nat → List Char
  | 0, _ => []
  | fuel + 1, n =>
    if n < 10 then [Char.ofNat (48 + n)]
    else natToCharsAux fuel (n / 10) ++ [Char.ofNat (48 + n % 10)]

/-- Decimal representation of a natural number (model of JS
`String(n)` for a non-negative integer). -/
def natToChars (n : Nat) : List Char := natToCharsAux (n + 1) n

/-- Decimal representation as a `String`. -/
def natToString (n : Nat) : String := ⟨natToChars n⟩

/-- Fold a digit list back into the natural number it denotes. -/
def digitsToNat (ds : List Char) : Nat :=
  ds.foldl (fun a c => a * 10 + (c.toNat - 48)) 0

theorem natToCharsAux_irrel :
    ∀ fuel₁ fuel₂ n, n < fuel₁ → n < fuel₂ →
      natToCharsAux fuel₁ n = natToCharsAux fuel₂ n := by
  intro fuel₁ fuel₂ n
  induction n using Nat.strong_induction_on generalizing fuel₁ fuel₂ with
  | _ n ih =>
    intro h₁ h₂
    match fuel₁, h₁ with
    | f₁ + 1, _ =>
      match fuel₂, h₂ with
      | f₂ + 1, _ =>
        simp only [natToCharsAux]
        split
        · rfl
        · rename_i hn
          have hd : n / 10 < n := Nat.div_lt_self (by omega) (by omega)
          rw [ih (n / 10) hd f₁ f₂ (by omega) (by omega)]

theorem natToCharsAux_digits :
    ∀ fuel n, n < fuel → ∀ c ∈ natToCharsAux fuel n, c.isDigit = true := by
  intro fuel n
  induction n using Nat.strong_induction_on generalizing fuel with
  | _ n ih =>
    intro h c hc
    match fuel, h with
    | f + 1, _ =>
      simp only [natToCharsAux] at hc
      split at hc
      · rename_i hn
        simp at hc
        subst hc
        interval_cases n <;> decide
      · rename_i hn
        have hd : n / 10 < n := Nat.div_lt_self (by omega) (by omega)
        rcases List.mem_append.1 hc with h' | h'
        · exact ih (n / 10) hd f (by omega) c h'
        · simp at h'
          subst h'
          have : n % 10 < 10 := Nat.mod_lt _ (by omega)
          set m := n % 10 with hm
          interval_cases m <;> decide

theorem natToCharsAux_ne_nil (fuel n : Nat) (h : 0 < fuel) :
    natToCharsAux fuel n ≠ [] := by
  match fuel, h with
  | f + 1, _ =>
    simp only [natToCharsAux]
    split
    · simp
    · simp

theorem digitsToNat_append_digit (ds : List Char) (c : Char) :
    digitsToNat (ds ++ [c]) = digitsToNat ds * 10 + (c.toNat - 48) := by
  simp [digitsToNat, List.foldl_append]

theorem digitsToNat_natToCharsAux :
    ∀ fuel n, n < fuel → digitsToNat (natToCharsAux fuel n) = n := by
  intro fuel n
  induction n using Nat.strong_induction_on generalizing fuel with
  | _ n ih =>
    intro h
    match fuel, h with
    | f + 1, _ =>
      simp only [natToCharsAux]
      split
      · rename_i hn
        simp only [digitsToNat, List.foldl]
        have hv : (Char.ofNat (48 + n)).toNat = 48 + n := by
          interval_cases n <;> decide
        simp [hv]
      · rename_i hn
        have hd : n / 10 < n := Nat.div_lt_self (by omega) (by omega)
        rw [digitsToNat_append_digit, ih (n / 10) hd f (by omega)]
        have h10 : n % 10 < 10 := Nat.mod_lt _ (by omega)
        have hv : (Char.ofNat (48 + n % 10)).toNat = 48 + n % 10 := by
          set m := n % 10 with hm
          interval_cases m <;> decide
        rw [hv]
        omega

theorem natToChars_digits (n : Nat) : ∀ c ∈ natToChars n, c.isDigit = true :=
  natToCharsAux_digits (n + 1) n (Nat.lt_succ_self n)

theorem digitsToNat_natToChars (n : Nat) : digitsToNat (natToChars n) = n :=
  digitsToNat_natToCharsAux (n + 1) n (Nat.lt_succ_self n)

theorem natToChars_ne_nil (n : Nat) : natToChars n ≠ [] :=
  natToCharsAux_ne_nil (n + 1) n (Nat.succ_pos n)

/-- Decimal representation of a JavaScript (integral) number. -/
def intToChars : Int → List Char
  | Int.ofNat n => natToChars n
  | Int.negSucc n => '-' :: natToChars (n + 1)

/-- Model of JavaScript `String.prototype.split` with a one-character
separator: splits at every occurrence, keeping empty segments. -/
def splitChar (sep : Char) : List Char → List (List Char)
  | [] => [[]]
  | c :: cs =>
    if c == sep then [] :: splitChar sep cs
    else
      match splitChar sep cs with
      | [] => [[c]]
      | g :: gs => (c :: g) :: gs

theorem splitChar_ne_nil (sep : Char) (cs : List Char) :
    splitChar sep cs ≠ [] := by
  induction cs with
  | nil => simp [splitChar]
  | cons c cs ih =>
    simp only [splitChar]
    split
    · simp
    · split
      · simp
      · simp

/-- The number of split segments is the separator count plus one; empty
segments are counted (nothing is filtered). -/
theorem splitChar_length (sep : Char) (cs : List Char) :
    (splitChar sep cs).length = cs.count sep + 1 := by
  induction cs with
  | nil => simp [splitChar]
  | cons c cs ih =>
    simp only [splitChar]
    split
    · rename_i hc
      simp only [List.length_cons, ih, List.count_cons]
      have : c = sep := by
        have := hc
        simpa [beq_iff_eq] using hc
      simp [this]
    · rename_i hc
      have hne : ¬(c = sep) := by simpa [beq_iff_eq] using hc
      rcases h : splitChar sep cs with _ | ⟨g, gs⟩
      · exact absurd h (splitChar_ne_nil sep cs)
      · simp only [List.length_cons]
        have := ih
        rw [h] at this
        simp only [List.length_cons] at this
        simp [List.count_cons, hne, ← this]

/-- Characters stripped by JavaScript `String.prototype.trim`
(ASCII whitespace, NBSP and the BOM; the common cases). -/
def isJsSpace (c : Char) : Bool :=
  c == ' ' || c == '\t' || c == '\n' || c == '\r' ||
  c == '\x0b' || c == '\x0c' || c == '\xa0' || c == '﻿'

/-- Model of JavaScript `String.prototype.trim`. -/
def jsTrim (s : String) : String :=
  ⟨((s.data.dropWhile isJsSpace).reverse.dropWhile isJsSpace).reverse⟩

/-- Model of JavaScript `String.prototype.split(",")` returning
strings. -/
def jsSplit (sep : Char) (s : String) : List String :=
  (splitChar sep s.data).map String.mk

theorem jsSplit_length (sep : Char) (s : String) :
    (jsSplit sep s).length = s.data.count sep + 1 := by
  simp [jsSplit, splitChar_length]

/-! ## JSON values, serialization and parsing

`JVal` is the universe of JSON-serializable JavaScript values a
`ListingData` record can hold (numbers restricted to integers).
`jsonStringify` follows ECMA-262 `JSON.stringify(v, null, 2)`;
`jsonParse` is a JSON parser in the sense of `JSON.parse`, restricted
to the same number grammar. -/

inductive JVal where
  | null : JVal
  | bool : Bool → JVal
  | num : Int → JVal
  | str : String → JVal
  | arr : List JVal → JVal
  | obj : List (String × JVal) → JVal

/-- JSON string-character escaping as performed by `JSON.stringify`
(ECMA-262 QuoteJSONString): quote, backslash, the named control
escapes, and `\u00xx` for the remaining control characters. -/
def escJChar (c : Char) : List Char :=
  if c == '"' then ['\\', '"']
  else if c == '\\' then ['\\', '\\']
  else if c == '\x08' then ['\\', 'b']
  else if c == '\t' then ['\\', 't']
  else if c == '\n' then ['\\', 'n']
  else if c == '\x0c' then ['\\', 'f']
  else if c == '\r' then ['\\', 'r']
  else if c.toNat < 32 then
    ['\\', 'u', '0', '0', hexDigitChar (c.toNat / 16), hexDigitChar (c.toNat % 16)]
  else [c]
where
  /-- Lower-case hexadecimal digit for a value below 16. -/
  hexDigitChar (n : Nat) : Char :=
    if n < 10 then Char.ofNat (48 + n) else Char.ofNat (87 + n)

/-- Serialized JSON string literal (surrounding quotes plus escaped
body). -/
def quoteJString (s : String) : List Char :=
  '"' :: s.data.flatMap escJChar ++ ['"']

/-- Two-space indentation at the given nesting depth (the `gap` of
`JSON.stringify(v, null, 2)`). -/
def jGap (depth : Nat) : List Char := List.replicate (2 * depth) ' '

mutual

/-- Characters of `JSON.stringify(v, null, 2)` at a given nesting
depth. -/
def printJVal : Nat → JVal → List Char
  | _, JVal.null => ['n', 'u', 'l', 'l']
  | _, JVal.bool true => ['t', 'r', 'u', 'e']
  | _, JVal.bool false => ['f', 'a', 'l', 's', 'e']
  | _, JVal.num i => intToChars i
  | _, JVal.str s => quoteJString s
  | _, JVal.arr [] => ['[', ']']
  | depth, JVal.arr (v :: vs) =>
    '[' :: '\n' :: jGap (depth + 1) ++ printJVal (depth + 1) v ++
      printJItems (depth + 1) vs ++ '\n' :: jGap depth ++ [']']
  | _, JVal.obj [] => ['\x7b', '\x7d']
  | depth, JVal.obj (kv :: kvs) =>
    '\x7b' :: '\n' :: jGap (depth + 1) ++ quoteJString kv.1 ++ ':' :: ' ' ::
      printJVal (depth + 1) kv.2 ++ printJMembers (depth + 1) kvs ++
      '\n' :: jGap depth ++ ['\x7d']

/-- Remaining array elements, each preceded by a comma, newline and
indentation. -/
def printJItems : Nat → List JVal → List Char
  | _, [] => []
  | depth, v :: vs =>
    ',' :: '\n' :: jGap depth ++ printJVal depth v ++ printJItems depth vs

/-- Remaining object members, each preceded by a comma, newline and
indentation. -/
def printJMembers : Nat → List (String × JVal) → List Char
  | _, [] => []
  | depth, kv :: kvs =>
    ',' :: '\n' :: jGap depth ++ quoteJString kv.1 ++ ':' :: ' ' ::
      printJVal depth kv.2 ++ printJMembers depth kvs

end

/-- The serialized record text, as a string. -/
def jsonStringify (v : JVal) : String := ⟨printJVal 0 v⟩

/-- JSON insignificant whitespace. -/
def isJWs (c : Char) : Bool :=
  c == ' ' || c == '\n' || c == '\t' || c == '\r'

/-- Skip insignificant whitespace. -/
def skipJWs : List Char → List Char
  | [] => []
  | c :: cs => if isJWs c then skipJWs cs else c :: cs

/-- Value of a hexadecimal digit character. -/
def hexVal (c : Char) : Option Nat :=
  if 48 ≤ c.toNat && c.toNat ≤ 57 then some (c.toNat - 48)
  else if 97 ≤ c.toNat && c.toNat ≤ 102 then some (c.toNat - 87)
  else if 65 ≤ c.toNat && c.toNat ≤ 70 then some (c.toNat - 55)
  else none

/-- Parse the body of a JSON string literal (after the opening quote),
returning the decoded characters and the remainder after the closing
quote. -/
def parseJStringBody : List Char → Option (List Char × List Char)
  | [] => none
  | c :: cs =>
    if c == '"' then some ([], cs)
    else if c == '\\' then
      match cs with
      | [] => none
      | e :: cs₂ =>
        if e == '"' then (parseJStringBody cs₂).map (fun p => ('"' :: p.1, p.2))
        else if e == '\\' then (parseJStringBody cs₂).map (fun p => ('\\' :: p.1, p.2))
        else if e == '/' then (parseJStringBody cs₂).map (fun p => ('/' :: p.1, p.2))
        else if e == 'b' then (parseJStringBody cs₂).map (fun p => ('\x08' :: p.1, p.2))
        else if e == 'f' then (parseJStringBody cs₂).map (fun p => ('\x0c' :: p.1, p.2))
        else if e == 'n' then (parseJStringBody cs₂).map (fun p => ('\n' :: p.1, p.2))
        else if e == 'r' then (parseJStringBody cs₂).map (fun p => ('\r' :: p.1, p.2))
        else if e == 't' then (parseJStringBody cs₂).map (fun p => ('\t' :: p.1, p.2))
        else if e == 'u' then
          match cs₂ with
          | h₁ :: h₂ :: h₃ :: h₄ :: cs₃ =>
            match hexVal h₁, hexVal h₂, hexVal h₃, hexVal h₄ with
            | some a, some b, some c', some d =>
              (parseJStringBody cs₃).map
                (fun p => (Char.ofNat (((a * 16 + b) * 16 + c') * 16 + d) :: p.1, p.2))
            | _, _, _, _ => none
          | _ => none
        else none
    else if c.toNat < 32 then none
    else (parseJStringBody cs).map (fun p => (c :: p.1, p.2))

mutual

/-- Fueled JSON value parser (model of `JSON.parse`, with the number
grammar restricted to integers, which is all the serializer emits). -/
def parseJVal : Nat → List Char → Option (JVal × List Char)
  | 0, _ => none
  | fuel + 1, s =>
    match skipJWs s with
    | [] => none
    | c :: r =>
      if c == 'n' then
        match r with
        | 'u' :: 'l' :: 'l' :: r₂ => some (JVal.null, r₂)
        | _ => none
      else if c == 't' then
        match r with
        | 'r' :: 'u' :: 'e' :: r₂ => some (JVal.bool true, r₂)
        | _ => none
      else if c == 'f' then
        match r with
        | 'a' :: 'l' :: 's' :: 'e' :: r₂ => some (JVal.bool false, r₂)
        | _ => none
      else if c == '"' then
        (parseJStringBody r).map (fun p => (JVal.str ⟨p.1⟩, p.2))
      else if c == '[' then
        match skipJWs r with
        | [] => none
        | c₂ :: r₂ =>
          if c₂ == ']' then some (JVal.arr [], r₂)
          else
            match parseJVal fuel (c₂ :: r₂) with
            | none => none
            | some (v, r₃) =>
              match parseJArrTail fuel r₃ with
              | none => none
              | some (vs, r₄) => some (JVal.arr (v :: vs), r₄)
      else if c == '\x7b' then
        match skipJWs r with
        | [] => none
        | c₂ :: r₂ =>
          if c₂ == '\x7d' then some (JVal.obj [], r₂)
          else
            match parseJMember fuel (c₂ :: r₂) with
            | none => none
            | some (kv, r₃) =>
              match parseJObjTail fuel r₃ with
              | none => none
              | some (kvs, r₄) => some (JVal.obj (kv :: kvs), r₄)
      else if c == '-' then
        match r with
        | [] => none
        | d :: r₂ =>
          if d.isDigit then
            some (JVal.num (-(Int.ofNat (digitsToNat (d :: r₂.takeWhile Char.isDigit)))),
              r₂.dropWhile Char.isDigit)
          else none
      else if c.isDigit then
        some (JVal.num (Int.ofNat (digitsToNat (c :: r.takeWhile Char.isDigit))),
          r.dropWhile Char.isDigit)
      else none

/-- After one array element: either `]` closes the array or `,` starts
the next element. -/
def parseJArrTail : Nat → List Char → Option (List JVal × List Char)
  | 0, _ => none
  | fuel + 1, s =>
    match skipJWs s with
    | [] => none
    | c :: r =>
      if c == ']' then some ([], r)
      else if c == ',' then
        match parseJVal fuel r with
        | none => none
        | some (v, r₂) =>
          match parseJArrTail fuel r₂ with
          | none => none
          | some (vs, r₃) => some (v :: vs, r₃)
      else none

/-- One object member: a key string, a colon, a value. -/
def parseJMember : Nat → List Char → Option ((String × JVal) × List Char)
  | 0, _ => none
  | fuel + 1, s =>
    match skipJWs s with
    | [] => none
    | c :: r =>
      if c == '"' then
        match parseJStringBody r with
        | none => none
        | some (k, r₂) =>
          match skipJWs r₂ with
          | [] => none
          | c₂ :: r₃ =>
            if c₂ == ':' then
              match parseJVal fuel r₃ with
              | none => none
              | some (v, r₄) => some ((⟨k⟩, v), r₄)
            else none
      else none

/-- After one object member: either the closing brace or `,` and the
next member. -/
def parseJObjTail : Nat → List Char → Option (List (String × JVal) × List Char)
  | 0, _ => none
  | fuel + 1, s =>
    match skipJWs s with
    | [] => none
    | c :: r =>
      if c == '\x7d' then some ([], r)
      else if c == ',' then
        match parseJMember fuel r with
        | none => none
        | some (kv, r₂) =>
          match parseJObjTail fuel r₂ with
          | none => none
          | some (kvs, r₃) => some (kv :: kvs, r₃)
      else none

end

/-- Model of `JSON.parse`: parse one value, allow trailing whitespace
only. -/
def jsonParse (s : String) : Option JVal :=
  match parseJVal (s.data.length + 1) s.data with
  | some (v, rest) => if skipJWs rest = [] then some v else none
  | none => none

/-! ### Round-trip: auxiliary lemmas -/

theorem skipJWs_append (ws s : List Char) (h : ∀ c ∈ ws, isJWs c = true) :
    skipJWs (ws ++ s) = skipJWs s := by
  induction ws with
  | nil => rfl
  | cons c cs ih =>
    simp only [List.cons_append, skipJWs, h c (List.mem_cons_self c cs), if_true]
    exact ih (fun c' hc' => h c' (List.mem_cons_of_mem c hc'))

theorem skipJWs_cons_not (c : Char) (s : List Char) (h : isJWs c = false) :
    skipJWs (c :: s) = c :: s := by
  simp [skipJWs, h]

theorem jGap_ws (d : Nat) : ∀ c ∈ jGap d, isJWs c = true := by
  intro c hc
  have : c = ' ' := List.eq_of_mem_replicate hc
  subst this
  decide

theorem takeWhile_append_all (p : Char → Bool) (xs ys : List Char)
    (h : ∀ x ∈ xs, p x = true) :
    (xs ++ ys).takeWhile p = xs ++ ys.takeWhile p := by
  induction xs with
  | nil => rfl
  | cons x xs ih =>
    simp [List.takeWhile_cons, h x (List.mem_cons_self x xs),
      ih (fun x' hx' => h x' (List.mem_cons_of_mem x hx'))]

theorem dropWhile_append_all (p : Char → Bool) (xs ys : List Char)
    (h : ∀ x ∈ xs, p x = true) :
    (xs ++ ys).dropWhile p = ys.dropWhile p := by
  induction xs with
  | nil => rfl
  | cons x xs ih =>
    simp only [List.cons_append, List.dropWhile_cons,
      h x (List.mem_cons_self x xs), if_true]
    exact ih (fun x' hx' => h x' (List.mem_cons_of_mem x hx'))

theorem takeWhile_nondigit (c : Char) (s : List Char) (h : c.isDigit = false) :
    (c :: s).takeWhile Char.isDigit = [] := by
  simp [List.takeWhile_cons, h]

theorem dropWhile_nondigit (c : Char) (s : List Char) (h : c.isDigit = false) :
    (c :: s).dropWhile Char.isDigit = c :: s := by
  simp [List.dropWhile_cons, h]

/-- A character equality test against a non-digit is false for a
digit. -/
theorem beq_false_of_digit {c d : Char} (h : c.isDigit = true)
    (hd : d.isDigit = false) : (c == d) = false := by
  cases hbe : c == d
  · rfl
  · exfalso
    have : c = d := by simpa [beq_iff_eq] using hbe
    subst this
    rw [h] at hd
    cases hd

theorem isJWs_of_digit {c : Char} (h : c.isDigit = true) : isJWs c = false := by
  simp only [isJWs, beq_false_of_digit h (by decide : (' ' : Char).isDigit = false),
    beq_false_of_digit h (by decide : ('\n' : Char).isDigit = false),
    beq_false_of_digit h (by decide : ('\t' : Char).isDigit = false),
    beq_false_of_digit h (by decide : ('\r' : Char).isDigit = false), Bool.or_self]

theorem hexVal_hexDigitChar : ∀ n, n < 16 →
    hexVal (escJChar.hexDigitChar n) = some n := by decide

/-- Round trip for JSON string bodies: parsing the escaped characters
followed by a closing quote recovers the original characters. -/
theorem parseJStringBody_rt (cs rest : List Char) :
    parseJStringBody (cs.flatMap escJChar ++ '"' :: rest) = some (cs, rest) := by
  induction cs with
  | nil =>
    rw [List.flatMap_nil, List.nil_append, parseJStringBody.eq_def]
    simp
  | cons c cs ih =>
    have hstep : (c :: cs).flatMap escJChar ++ '"' :: rest =
        escJChar c ++ (cs.flatMap escJChar ++ '"' :: rest) := by
      simp [List.flatMap_cons]
    rw [hstep]
    by_cases h1 : c = '"'
    · subst h1
      rw [show escJChar '"' = ['\\', '"'] from rfl, List.cons_append,
        List.cons_append, List.nil_append, parseJStringBody.eq_def]
      simp [ih]
    · by_cases h2 : c = '\\'
      · subst h2
        rw [show escJChar '\\' = ['\\', '\\'] from rfl, List.cons_append,
          List.cons_append, List.nil_append, parseJStringBody.eq_def]
        simp [ih]
      · by_cases h3 : c = '\x08'
        · subst h3
          rw [show escJChar '\x08' = ['\\', 'b'] from rfl, List.cons_append,
            List.cons_append, List.nil_append, parseJStringBody.eq_def]
          simp [ih]
        · by_cases h4 : c = '\t'
          · subst h4
            rw [show escJChar '\t' = ['\\', 't'] from rfl, List.cons_append,
              List.cons_append, List.nil_append, parseJStringBody.eq_def]
            simp [ih]
          · by_cases h5 : c = '\n'
            · subst h5
              rw [show escJChar '\n' = ['\\', 'n'] from rfl, List.cons_append,
                List.cons_append, List.nil_append, parseJStringBody.eq_def]
              simp [ih]
            · by_cases h6 : c = '\x0c'
              · subst h6
                rw [show escJChar '\x0c' = ['\\', 'f'] from rfl, List.cons_append,
                  List.cons_append, List.nil_append, parseJStringBody.eq_def]
                simp [ih]
              · by_cases h7 : c = '\r'
                · subst h7
                  rw [show escJChar '\r' = ['\\', 'r'] from rfl, List.cons_append,
                    List.cons_append, List.nil_append, parseJStringBody.eq_def]
                  simp [ih]
                · have e1 : (c == '"') = false := by simp [h1]
                  have e2 : (c == '\\') = false := by simp [h2]
                  have e3 : (c == '\x08') = false := by simp [h3]
                  have e4 : (c == '\t') = false := by simp [h4]
                  have e5 : (c == '\n') = false := by simp [h5]
                  have e6 : (c == '\x0c') = false := by simp [h6]
                  have e7 : (c == '\r') = false := by simp [h7]
                  by_cases h8 : c.toNat < 32
                  · have hd1 : hexVal (escJChar.hexDigitChar (c.toNat / 16)) =
                        some (c.toNat / 16) := hexVal_hexDigitChar _ (by omega)
                    have hd2 : hexVal (escJChar.hexDigitChar (c.toNat % 16)) =
                        some (c.toNat % 16) := hexVal_hexDigitChar _ (by omega)
                    have hesc : escJChar c = ['\\', 'u', '0', '0',
                        escJChar.hexDigitChar (c.toNat / 16),
                        escJChar.hexDigitChar (c.toNat % 16)] := by
                      simp only [escJChar, e1, e2, e3, e4, e5, e6, e7, h8, if_true,
                        Bool.false_eq_true, if_false]
                    rw [hesc]
                    simp only [List.cons_append, List.nil_append]
                    rw [parseJStringBody.eq_def]
                    have h0 : hexVal '0' = some 0 := by decide
                    simp only [hd1, hd2, h0]
                    simp [ih]
                    have hval : c.toNat / 16 * 16 + c.toNat % 16 = c.toNat := by
                      omega
                    rw [hval, Char.ofNat_toNat]
                  · have hesc : escJChar c = [c] := by
                      simp only [escJChar, e1, e2, e3, e4, e5, e6, e7, h8,
                        Bool.false_eq_true, if_false]
                    rw [hesc]
                    simp only [List.cons_append, List.nil_append]
                    rw [parseJStringBody.eq_def]
                    simp [e1, e2, h8, ih]

mutual

/-- Fuel bound for parsing a value. -/
def jsize : JVal → Nat
  | JVal.null => 1
  | JVal.bool _ => 1
  | JVal.num _ => 1
  | JVal.str _ => 1
  | JVal.arr vs => 1 + jsizeItems vs
  | JVal.obj kvs => 1 + jsizeMembers kvs

/-- Fuel bound for parsing an array tail. -/
def jsizeItems : List JVal → Nat
  | [] => 1
  | v :: vs => 1 + jsize v + jsizeItems vs

/-- Fuel bound for parsing an object tail. -/
def jsizeMembers : List (String × JVal) → Nat
  | [] => 1
  | kv :: kvs => 2 + jsize kv.2 + jsizeMembers kvs

end

theorem jsize_pos (v : JVal) : 1 ≤ jsize v := by
  cases v <;> simp [jsize]

theorem jsizeItems_pos (vs : List JVal) : 1 ≤ jsizeItems vs := by
  cases vs with
  | nil => simp [jsizeItems]
  | cons v vs => simp only [jsizeItems]; omega

theorem jsizeMembers_pos (kvs : List (String × JVal)) : 1 ≤ jsizeMembers kvs := by
  cases kvs with
  | nil => simp [jsizeMembers]
  | cons kv kvs => simp only [jsizeMembers]; omega

theorem stringMk_data (s : String) : String.mk s.data = s := by
  cases s
  rfl

/-- Head of the stream after a value must not be a digit (would be
glued into a preceding number literal). -/
def noDigitHead : List Char → Bool
  | [] => true
  | c :: _ => !c.isDigit

theorem not_digit_of_isJWs {c : Char} (h : isJWs c = true) : c.isDigit = false := by
  simp only [isJWs, Bool.or_eq_true, beq_iff_eq] at h
  rcases h with ((h | h) | h) | h <;> subst h <;> decide

/-- The first character printed for a value: it is not whitespace and
is not a closing bracket, closing brace or comma. -/
theorem printJVal_head (d : Nat) (v : JVal) :
    ∃ c t, printJVal d v = c :: t ∧ isJWs c = false ∧ (c == ']') = false ∧
      (c == '\x7d') = false := by
  cases v with
  | null => exact ⟨'n', _, rfl, by decide, by decide, by decide⟩
  | bool b =>
    cases b with
    | false => exact ⟨'f', _, rfl, by decide, by decide, by decide⟩
    | true => exact ⟨'t', _, rfl, by decide, by decide, by decide⟩
  | num i =>
    cases i with
    | ofNat n =>
      rcases h : natToChars n with _ | ⟨c, t⟩
      · exact absurd h (natToChars_ne_nil n)
      · have hdig : c.isDigit = true := by
          have := natToChars_digits n c
          rw [h] at this
          exact this (List.mem_cons_self c t)
        refine ⟨c, t, ?_, isJWs_of_digit hdig, ?_, ?_⟩
        · simp [printJVal, intToChars, h]
        · exact beq_false_of_digit hdig (by decide)
        · exact beq_false_of_digit hdig (by decide)
    | negSucc n =>
      exact ⟨'-', _, rfl, by decide, by decide, by decide⟩
  | str s => exact ⟨'"', _, rfl, by decide, by decide, by decide⟩
  | arr vs =>
    cases vs
    · exact ⟨'[', _, rfl, by decide, by decide, by decide⟩
    · exact ⟨'[', _, rfl, by decide, by decide, by decide⟩
  | obj kvs =>
    cases kvs
    · exact ⟨'\x7b', _, rfl, by decide, by decide, by decide⟩
    · exact ⟨'\x7b', _, rfl, by decide, by decide, by decide⟩

theorem skipJWs_cons_ws (c : Char) (s : List Char) (h : isJWs c = true) :
    skipJWs (c :: s) = skipJWs s := by
  simp [skipJWs, h]

theorem noDigitHead_printJItems (d : Nat) (vs : List JVal) (z : List Char)
    (h : noDigitHead z = true) : noDigitHead (printJItems d vs ++ z) = true := by
  cases vs with
  | nil => simpa [printJItems]
  | cons v vs => simp [printJItems, noDigitHead]

theorem noDigitHead_printJMembers (d : Nat) (kvs : List (String × JVal)) (z : List Char)
    (h : noDigitHead z = true) : noDigitHead (printJMembers d kvs ++ z) = true := by
  cases kvs with
  | nil => simpa [printJMembers]
  | cons kv kvs => simp [printJMembers, noDigitHead]

/-- Round trip of the JSON serializer and parser: parsing printed
output (with any leading whitespace and any non-digit-headed
remainder) recovers the value exactly. -/
theorem parseJ_rt : ∀ fuel : Nat,
    (∀ v d ws rest, jsize v ≤ fuel → (∀ c ∈ ws, isJWs c = true) →
        noDigitHead rest = true →
        parseJVal fuel (ws ++ printJVal d v ++ rest) = some (v, rest)) ∧
    (∀ vs d ws rest, jsizeItems vs ≤ fuel → (∀ c ∈ ws, isJWs c = true) →
        parseJArrTail fuel (printJItems d vs ++ ws ++ ']' :: rest) = some (vs, rest)) ∧
    (∀ kvs d ws rest, jsizeMembers kvs ≤ fuel → (∀ c ∈ ws, isJWs c = true) →
        parseJObjTail fuel (printJMembers d kvs ++ ws ++ '\x7d' :: rest) =
          some (kvs, rest)) ∧
    (∀ k v d ws rest, 1 + jsize v ≤ fuel → (∀ c ∈ ws, isJWs c = true) →
        noDigitHead rest = true →
        parseJMember fuel (ws ++ quoteJString k ++ ':' :: ' ' :: printJVal d v ++ rest) =
          some ((k, v), rest)) := by
  intro fuel
  induction fuel with
  | zero =>
    refine ⟨?_, ?_, ?_, ?_⟩
    · intro v _ _ _ h _ _
      exact absurd h (by have := jsize_pos v; omega)
    · intro vs _ _ _ h _
      exact absurd h (by have := jsizeItems_pos vs; omega)
    · intro kvs _ _ _ h _
      exact absurd h (by have := jsizeMembers_pos kvs; omega)
    · intro k v _ _ _ h _ _
      exact absurd h (by have := jsize_pos v; omega)
  | succ fuel ih =>
    obtain ⟨ihv, iha, iho, ihm⟩ := ih
    refine ⟨?_, ?_, ?_, ?_⟩
    · -- values
      intro v d ws rest hsz hws hnd
      have hrt : rest.takeWhile Char.isDigit = [] := by
        cases rest with
        | nil => rfl
        | cons r rs =>
          have hr : r.isDigit = false := by simpa [noDigitHead] using hnd
          simp [List.takeWhile_cons, hr]
      have hrd : rest.dropWhile Char.isDigit = rest := by
        cases rest with
        | nil => rfl
        | cons r rs =>
          have hr : r.isDigit = false := by simpa [noDigitHead] using hnd
          simp [List.dropWhile_cons, hr]
      cases v with
      | null =>
        rw [List.append_assoc, parseJVal.eq_def,
          show printJVal d JVal.null ++ rest = 'n' :: 'u' :: 'l' :: 'l' :: rest from rfl]
        dsimp only
        rw [skipJWs_append _ _ hws, skipJWs_cons_not _ _ (by decide)]
        simp
      | bool b =>
        cases b with
        | true =>
          rw [List.append_assoc, parseJVal.eq_def,
            show printJVal d (JVal.bool true) ++ rest = 't' :: 'r' :: 'u' :: 'e' :: rest
              from rfl]
          dsimp only
          rw [skipJWs_append _ _ hws, skipJWs_cons_not _ _ (by decide)]
          simp
        | false =>
          rw [List.append_assoc, parseJVal.eq_def,
            show printJVal d (JVal.bool false) ++ rest =
              'f' :: 'a' :: 'l' :: 's' :: 'e' :: rest from rfl]
          dsimp only
          rw [skipJWs_append _ _ hws, skipJWs_cons_not _ _ (by decide)]
          simp
      | str s =>
        have h1 : printJVal d (JVal.str s) ++ rest =
            '"' :: (s.data.flatMap escJChar ++ '"' :: rest) := by
          simp [printJVal, quoteJString]
        rw [List.append_assoc, parseJVal.eq_def, h1]
        dsimp only
        rw [skipJWs_append _ _ hws, skipJWs_cons_not _ _ (by decide)]
        simp [parseJStringBody_rt, stringMk_data]
      | num i =>
        cases i with
        | ofNat n =>
          rcases hn : natToChars n with _ | ⟨c, t⟩
          · exact absurd hn (natToChars_ne_nil n)
          · have hcd : c.isDigit = true := by
              refine natToChars_digits n c ?_
              rw [hn]
              exact List.mem_cons_self c t
            have htd : ∀ x ∈ t, x.isDigit = true := by
              intro x hx
              refine natToChars_digits n x ?_
              rw [hn]
              exact List.mem_cons_of_mem c hx
            have h1 : printJVal d (JVal.num (Int.ofNat n)) ++ rest = c :: (t ++ rest) := by
              simp [printJVal, intToChars, hn]
            have htk : (t ++ rest).takeWhile Char.isDigit = t := by
              rw [takeWhile_append_all _ _ _ htd, hrt, List.append_nil]
            have hdw : (t ++ rest).dropWhile Char.isDigit = rest := by
              rw [dropWhile_append_all _ _ _ htd, hrd]
            have hv : digitsToNat (c :: t) = n := by
              rw [← hn]
              exact digitsToNat_natToChars n
            rw [List.append_assoc, parseJVal.eq_def, h1]
            dsimp only
            rw [skipJWs_append _ _ hws, skipJWs_cons_not _ _ (isJWs_of_digit hcd)]
            simp only [beq_false_of_digit hcd (show ('n' : Char).isDigit = false by decide),
              beq_false_of_digit hcd (show ('t' : Char).isDigit = false by decide),
              beq_false_of_digit hcd (show ('f' : Char).isDigit = false by decide),
              beq_false_of_digit hcd (show ('"' : Char).isDigit = false by decide),
              beq_false_of_digit hcd (show ('[' : Char).isDigit = false by decide),
              beq_false_of_digit hcd (show ('\x7b' : Char).isDigit = false by decide),
              beq_false_of_digit hcd (show ('-' : Char).isDigit = false by decide),
              hcd, htk, hdw, hv]
            simp
        | negSucc n =>
          rcases hn : natToChars (n + 1) with _ | ⟨c, t⟩
          · exact absurd hn (natToChars_ne_nil (n + 1))
          · have hcd : c.isDigit = true := by
              refine natToChars_digits (n + 1) c ?_
              rw [hn]
              exact List.mem_cons_self c t
            have htd : ∀ x ∈ t, x.isDigit = true := by
              intro x hx
              refine natToChars_digits (n + 1) x ?_
              rw [hn]
              exact List.mem_cons_of_mem c hx
            have h1 : printJVal d (JVal.num (Int.negSucc n)) ++ rest =
                '-' :: c :: (t ++ rest) := by
              simp [printJVal, intToChars, hn]
            have htk : (t ++ rest).takeWhile Char.isDigit = t := by
              rw [takeWhile_append_all _ _ _ htd, hrt, List.append_nil]
            have hdw : (t ++ rest).dropWhile Char.isDigit = rest := by
              rw [dropWhile_append_all _ _ _ htd, hrd]
            have hv : digitsToNat (c :: t) = n + 1 := by
              rw [← hn]
              exact digitsToNat_natToChars (n + 1)
            have hneg : -(Int.ofNat (n + 1)) = Int.negSucc n := by
              rw [Int.negSucc_eq]
              simp
            rw [List.append_assoc, parseJVal.eq_def, h1]
            dsimp only
            rw [skipJWs_append _ _ hws, skipJWs_cons_not _ _ (by decide)]
            simp only [hcd, htk, hdw, hv, hneg]
            simp
      | arr vs =>
        cases vs with
        | nil =>
          rw [List.append_assoc, parseJVal.eq_def,
            show printJVal d (JVal.arr []) ++ rest = '[' :: ']' :: rest from rfl]
          dsimp only
          rw [skipJWs_append _ _ hws, skipJWs_cons_not _ _ (by decide)]
          dsimp only
          rw [skipJWs_cons_not _ _ (by decide)]
          simp
        | cons v vs =>
          obtain ⟨c₀, t₀, hct, hcw, hcrb, hcrc⟩ := printJVal_head (d + 1) v
          have hsz1 : jsize v ≤ fuel := by
            have h1 := jsizeItems_pos vs
            simp only [jsize, jsizeItems] at hsz
            omega
          have hsz2 : jsizeItems vs ≤ fuel := by
            have h1 := jsize_pos v
            simp only [jsize, jsizeItems] at hsz
            omega
          have hnd2 : noDigitHead (printJItems (d + 1) vs ++
              '\n' :: (jGap d ++ ']' :: rest)) = true :=
            noDigitHead_printJItems _ _ _ (by simp [noDigitHead])
          have h1 : printJVal d (JVal.arr (v :: vs)) ++ rest =
              '[' :: '\n' :: (jGap (d + 1) ++ (printJVal (d + 1) v ++
                (printJItems (d + 1) vs ++ '\n' :: (jGap d ++ ']' :: rest)))) := by
            simp [printJVal, List.append_assoc]
          have h2 : skipJWs ('\n' :: (jGap (d + 1) ++ (printJVal (d + 1) v ++
              (printJItems (d + 1) vs ++ '\n' :: (jGap d ++ ']' :: rest))))) =
              c₀ :: (t₀ ++ (printJItems (d + 1) vs ++ '\n' :: (jGap d ++ ']' :: rest))) := by
            rw [skipJWs_cons_ws _ _ (by decide), skipJWs_append _ _ (jGap_ws (d + 1)), hct,
              List.cons_append, skipJWs_cons_not _ _ hcw]
          have h3 : parseJVal fuel (c₀ :: (t₀ ++ (printJItems (d + 1) vs ++
              '\n' :: (jGap d ++ ']' :: rest)))) =
              some (v, printJItems (d + 1) vs ++ '\n' :: (jGap d ++ ']' :: rest)) := by
            have hx := ihv v (d + 1) []
              (printJItems (d + 1) vs ++ '\n' :: (jGap d ++ ']' :: rest)) hsz1
              (by simp) hnd2
            rw [List.nil_append, hct, List.cons_append] at hx
            exact hx
          have h4 : parseJArrTail fuel (printJItems (d + 1) vs ++
              '\n' :: (jGap d ++ ']' :: rest)) = some (vs, rest) := by
            have hx := iha vs (d + 1) ('\n' :: jGap d) rest hsz2 (by
              intro x hx
              rcases List.mem_cons.1 hx with h | h
              · subst h
                decide
              · exact jGap_ws d x h)
            simpa [List.append_assoc] using hx
          rw [List.append_assoc, parseJVal.eq_def, h1]
          dsimp only
          rw [skipJWs_append _ _ hws, skipJWs_cons_not _ _ (by decide)]
          simp only [h2, hcrb, h3, h4]
          simp
      | obj kvs =>
        cases kvs with
        | nil =>
          rw [List.append_assoc, parseJVal.eq_def,
            show printJVal d (JVal.obj []) ++ rest = '\x7b' :: '\x7d' :: rest from rfl]
          dsimp only
          rw [skipJWs_append _ _ hws, skipJWs_cons_not _ _ (by decide)]
          dsimp only
          rw [skipJWs_cons_not _ _ (by decide)]
          simp
        | cons kv kvs =>
          have hsz1 : 1 + jsize kv.2 ≤ fuel := by
            have h1 := jsizeMembers_pos kvs
            simp only [jsize, jsizeMembers] at hsz
            omega
          have hsz2 : jsizeMembers kvs ≤ fuel := by
            have h1 := jsize_pos kv.2
            simp only [jsize, jsizeMembers] at hsz
            omega
          have hnd2 : noDigitHead (printJMembers (d + 1) kvs ++
              '\n' :: (jGap d ++ '\x7d' :: rest)) = true :=
            noDigitHead_printJMembers _ _ _ (by simp [noDigitHead])
          have h1 : printJVal d (JVal.obj (kv :: kvs)) ++ rest =
              '\x7b' :: '\n' :: (jGap (d + 1) ++ ('"' :: (kv.1.data.flatMap escJChar ++
                '"' :: ':' :: ' ' :: (printJVal (d + 1) kv.2 ++
                  (printJMembers (d + 1) kvs ++ '\n' :: (jGap d ++ '\x7d' :: rest)))))) := by
            simp [printJVal, quoteJString, List.append_assoc]
          have h2 : skipJWs ('\n' :: (jGap (d + 1) ++ ('"' :: (kv.1.data.flatMap escJChar ++
              '"' :: ':' :: ' ' :: (printJVal (d + 1) kv.2 ++
                (printJMembers (d + 1) kvs ++ '\n' :: (jGap d ++ '\x7d' :: rest))))))) =
              '"' :: (kv.1.data.flatMap escJChar ++
              '"' :: ':' :: ' ' :: (printJVal (d + 1) kv.2 ++
                (printJMembers (d + 1) kvs ++ '\n' :: (jGap d ++ '\x7d' :: rest)))) := by
            rw [skipJWs_cons_ws _ _ (by decide), skipJWs_append _ _ (jGap_ws (d + 1)),
              skipJWs_cons_not _ _ (by decide)]
          have h3 : parseJMember fuel ('"' :: (kv.1.data.flatMap escJChar ++
              '"' :: ':' :: ' ' :: (printJVal (d + 1) kv.2 ++
                (printJMembers (d + 1) kvs ++ '\n' :: (jGap d ++ '\x7d' :: rest))))) =
              some ((kv.1, kv.2),
                printJMembers (d + 1) kvs ++ '\n' :: (jGap d ++ '\x7d' :: rest)) := by
            have hx := ihm kv.1 kv.2 (d + 1) []
              (printJMembers (d + 1) kvs ++ '\n' :: (jGap d ++ '\x7d' :: rest)) hsz1
              (by simp) hnd2
            simpa [quoteJString, List.append_assoc] using hx
          have h4 : parseJObjTail fuel (printJMembers (d + 1) kvs ++
              '\n' :: (jGap d ++ '\x7d' :: rest)) = some (kvs, rest) := by
            have hx := iho kvs (d + 1) ('\n' :: jGap d) rest hsz2 (by
              intro x hx
              rcases List.mem_cons.1 hx with h | h
              · subst h
                decide
              · exact jGap_ws d x h)
            simpa [List.append_assoc] using hx
          rw [List.append_assoc, parseJVal.eq_def, h1]
          dsimp only
          rw [skipJWs_append _ _ hws, skipJWs_cons_not _ _ (by decide)]
          simp only [h2, h3, h4]
          simp
    · -- array tails
      intro vs d ws rest hsz hws
      cases vs with
      | nil =>
        rw [show printJItems d [] ++ ws ++ ']' :: rest = ws ++ ']' :: rest by
            simp [printJItems],
          parseJArrTail.eq_def]
        dsimp only
        rw [skipJWs_append _ _ hws, skipJWs_cons_not _ _ (by decide)]
        simp
      | cons v vs =>
        have hsz1 : jsize v ≤ fuel := by
          have h1 := jsizeItems_pos vs
          simp only [jsizeItems] at hsz
          omega
        have hsz2 : jsizeItems vs ≤ fuel := by
          have h1 := jsize_pos v
          simp only [jsizeItems] at hsz
          omega
        have hnd2 : noDigitHead (printJItems d vs ++ ws ++ ']' :: rest) = true := by
          rw [List.append_assoc]
          refine noDigitHead_printJItems _ _ _ ?_
          cases ws with
          | nil => simp [noDigitHead]
          | cons w ws' =>
            have : w.isDigit = false :=
              not_digit_of_isJWs (hws w (List.mem_cons_self w ws'))
            simp [noDigitHead, this]
        have h1 : printJItems d (v :: vs) ++ ws ++ ']' :: rest =
            ',' :: '\n' :: (jGap d ++ (printJVal d v ++
              (printJItems d vs ++ (ws ++ ']' :: rest)))) := by
          simp [printJItems, List.append_assoc]
        have h3 : parseJVal fuel ('\n' :: (jGap d ++ (printJVal d v ++
            (printJItems d vs ++ (ws ++ ']' :: rest))))) =
            some (v, printJItems d vs ++ (ws ++ ']' :: rest)) := by
          have hx := ihv v d ('\n' :: jGap d)
            (printJItems d vs ++ (ws ++ ']' :: rest)) hsz1
            (by
              intro x hx
              rcases List.mem_cons.1 hx with h | h
              · subst h
                decide
              · exact jGap_ws d x h)
            (by rw [← List.append_assoc]; exact hnd2)
          simpa [List.append_assoc] using hx
        have h4 : parseJArrTail fuel (printJItems d vs ++ (ws ++ ']' :: rest)) =
            some (vs, rest) := by
          have hx := iha vs d ws rest hsz2 hws
          simpa [List.append_assoc] using hx
        rw [h1, parseJArrTail.eq_def]
        dsimp only
        rw [skipJWs_cons_not _ _ (by decide)]
        simp only [h3, h4]
        simp
    · -- object tails
      intro kvs d ws rest hsz hws
      cases kvs with
      | nil =>
        rw [show printJMembers d [] ++ ws ++ '\x7d' :: rest = ws ++ '\x7d' :: rest by
            simp [printJMembers],
          parseJObjTail.eq_def]
        dsimp only
        rw [skipJWs_append _ _ hws, skipJWs_cons_not _ _ (by decide)]
        simp
      | cons kv kvs =>
        have hsz1 : 1 + jsize kv.2 ≤ fuel := by
          have h1 := jsizeMembers_pos kvs
          simp only [jsizeMembers] at hsz
          omega
        have hsz2 : jsizeMembers kvs ≤ fuel := by
          have h1 := jsize_pos kv.2
          simp only [jsizeMembers] at hsz
          omega
        have hnd2 : noDigitHead (printJMembers d kvs ++ ws ++ '\x7d' :: rest) = true := by
          rw [List.append_assoc]
          refine noDigitHead_printJMembers _ _ _ ?_
          cases ws with
          | nil => simp [noDigitHead]
          | cons w ws' =>
            have : w.isDigit = false :=
              not_digit_of_isJWs (hws w (List.mem_cons_self w ws'))
            simp [noDigitHead, this]
        have h1 : printJMembers d (kv :: kvs) ++ ws ++ '\x7d' :: rest =
            ',' :: '\n' :: (jGap d ++ ('"' :: (kv.1.data.flatMap escJChar ++
              '"' :: ':' :: ' ' :: (printJVal d kv.2 ++
                (printJMembers d kvs ++ (ws ++ '\x7d' :: rest)))))) := by
          simp [printJMembers, quoteJString, List.append_assoc]
        have h3 : parseJMember fuel ('\n' :: (jGap d ++ ('"' :: (kv.1.data.flatMap escJChar ++
            '"' :: ':' :: ' ' :: (printJVal d kv.2 ++
              (printJMembers d kvs ++ (ws ++ '\x7d' :: rest))))))) =
            some ((kv.1, kv.2), printJMembers d kvs ++ (ws ++ '\x7d' :: rest)) := by
          have hx := ihm kv.1 kv.2 d ('\n' :: jGap d)
            (printJMembers d kvs ++ (ws ++ '\x7d' :: rest)) hsz1
            (by
              intro x hx
              rcases List.mem_cons.1 hx with h | h
              · subst h
                decide
              · exact jGap_ws d x h)
            (by rw [← List.append_assoc]; exact hnd2)
          simpa [quoteJString, List.append_assoc] using hx
        have h4 : parseJObjTail fuel (printJMembers d kvs ++ (ws ++ '\x7d' :: rest)) =
            some (kvs, rest) := by
          have hx := iho kvs d ws rest hsz2 hws
          simpa [List.append_assoc] using hx
        rw [h1, parseJObjTail.eq_def]
        dsimp only
        rw [skipJWs_cons_not _ _ (by decide)]
        simp only [h3, h4]
        simp
    · -- members
      intro k v d ws rest hsz hws hnd
      have hsz1 : jsize v ≤ fuel := by omega
      have h1 : ws ++ quoteJString k ++ ':' :: ' ' :: printJVal d v ++ rest =
          ws ++ ('"' :: (k.data.flatMap escJChar ++
            '"' :: ':' :: ' ' :: (printJVal d v ++ rest))) := by
        simp [quoteJString, List.append_assoc]
      have h3 : parseJVal fuel (' ' :: (printJVal d v ++ rest)) = some (v, rest) := by
        have hx := ihv v d [' '] rest hsz1 (by
          intro x hx
          rcases List.mem_cons.1 hx with h | h
          · subst h
            decide
          · simp at h) hnd
        simpa using hx
      rw [h1, parseJMember.eq_def]
      dsimp only
      rw [skipJWs_append _ _ hws, skipJWs_cons_not _ _ (by decide)]
      simp only [parseJStringBody_rt]
      simp only [skipJWs_cons_not _ _ (by decide : isJWs ':' = false)]
      simp only [h3]
      simp [stringMk_data]

mutual

theorem jsize_le_plen : ∀ (d : Nat) (v : JVal), jsize v ≤ (printJVal d v).length
  | _, JVal.null => by simp [jsize, printJVal]
  | _, JVal.bool true => by simp [jsize, printJVal]
  | _, JVal.bool false => by simp [jsize, printJVal]
  | _, JVal.num i => by
    have h : intToChars i ≠ [] := by
      cases i with
      | ofNat n => exact natToChars_ne_nil n
      | negSucc n => simp [intToChars]
    have := List.length_pos.2 h
    simpa [jsize, printJVal] using this
  | _, JVal.str s => by simp [jsize, printJVal, quoteJString]
  | _, JVal.arr [] => by simp [jsize, printJVal, jsizeItems]
  | d, JVal.arr (v :: vs) => by
    have h1 := jsize_le_plen (d + 1) v
    have h2 := jsizeItems_le_plen (d + 1) vs
    simp only [jsize, jsizeItems, printJVal, List.length_append, List.length_cons]
    omega
  | _, JVal.obj [] => by simp [jsize, printJVal, jsizeMembers]
  | d, JVal.obj (kv :: kvs) => by
    have h1 := jsize_le_plen (d + 1) kv.2
    have h2 := jsizeMembers_le_plen (d + 1) kvs
    simp only [jsize, jsizeMembers, printJVal, quoteJString, List.length_append,
      List.length_cons]
    omega

theorem jsizeItems_le_plen : ∀ (d : Nat) (vs : List JVal),
    jsizeItems vs ≤ (printJItems d vs).length + 1
  | _, [] => by simp [jsizeItems, printJItems]
  | d, v :: vs => by
    have h1 := jsize_le_plen d v
    have h2 := jsizeItems_le_plen d vs
    simp only [jsizeItems, printJItems, List.length_append, List.length_cons]
    omega

theorem jsizeMembers_le_plen : ∀ (d : Nat) (kvs : List (String × JVal)),
    jsizeMembers kvs ≤ (printJMembers d kvs).length + 1
  | _, [] => by simp [jsizeMembers, printJMembers]
  | d, kv :: kvs => by
    have h1 := jsize_le_plen d kv.2
    have h2 := jsizeMembers_le_plen d kvs
    simp only [jsizeMembers, printJMembers, quoteJString, List.length_append,
      List.length_cons]
    omega

end

/-- Serializing any JSON value and parsing the result recovers the
value: the lossless round trip of `JSON.parse` after
`JSON.stringify(v, null, 2)`. -/
theorem jsonParse_jsonStringify (v : JVal) : jsonParse (jsonStringify v) = some v := by
  have hsz : jsize v ≤ (printJVal 0 v).length + 1 :=
    le_trans (jsize_le_plen 0 v) (by omega)
  have hrt := (parseJ_rt ((printJVal 0 v).length + 1)).1 v 0 [] [] hsz (by simp) rfl
  rw [List.nil_append, List.append_nil] at hrt
  show (match parseJVal ((jsonStringify v).data.length + 1) (jsonStringify v).data with
    | some (v, rest) => if skipJWs rest = [] then some v else none
    | none => none) = some v
  have hdata : (jsonStringify v).data = printJVal 0 v := rfl
  rw [hdata, hrt]
  simp [skipJWs]

/-! ## The ListingData record and the escape helpers -/

/-- Ambient JavaScript environment observed by the exporters: the
values `new Date().toLocaleDateString()` and
`new Date().toLocaleString()` would produce at export time. -/
structure JsEnv where
  dateStr : String
  dateTimeStr : String

/-- The `ListingData` record of `exportUtils.ts`.  String-typed fields
are modelled as `Option String`: `none` stands for a field that is
`null`/`undefined` (absent) at runtime, which the TypeScript types do
not rule out and the escape helpers explicitly test for.  `extra`
models the open index signature (extension key-value pairs). -/
structure ListingData where
  title : Option String
  description : Option String
  bulletPoints : List String
  keywords : Option String
  price : Option String
  category : Option String
  color : Option String := none
  dimensions_size : Option String := none
  weight : Option String := none
  primary_use : Option String := none
  included_items : Option String := none
  extra : List (String × JVal) := []

/-- JavaScript truthiness of an optional string (`undefined`, `null`
and `""` are falsy; every other string is truthy). -/
def truthy : Option String → Bool
  | none => false
  | some s => !s.isEmpty

/-- Per-character effect of `str.replace(/"/g, '""')`: a double quote
becomes two double quotes, anything else is unchanged. -/
def escCSVChar (c : Char) : List Char :=
  if c == '"' then ['"', '"'] else [c]

/-- Body of source `escapeCSV` for a non-null string:
`str.replace(/"/g, '""')` — every double quote is doubled, nothing
else changes. -/
def escapeCSVs (s : String) : String :=
  ⟨s.data.flatMap escCSVChar⟩

/-- Source `escapeCSV`: `undefined`/`null` is coerced to the empty
string, otherwise quotes are doubled. -/
def escapeCSV : Option String → String
  | none => ""
  | some s => escapeCSVs s

/-- Escaping performed on one character by DOM text-node serialization
(`div.textContent = s; div.innerHTML`): `&`, `<`, `>` and U+00A0
become entities; every other character — including both quote
characters — passes through verbatim. -/
def escHChar (c : Char) : List Char :=
  if c == '&' then "&amp;".data
  else if c == '<' then "&lt;".data
  else if c == '>' then "&gt;".data
  else if c == '\xa0' then "&nbsp;".data
  else [c]

/-- Body of source `escapeHTML` for a non-null string. -/
def escapeHTMLs (s : String) : String :=
  ⟨s.data.flatMap escHChar⟩

/-- Source `escapeHTML`: `undefined`/`null` is coerced to the empty
string, otherwise DOM text-node escaping. -/
def escapeHTML : Option String → String
  | none => ""
  | some s => escapeHTMLs s

/-! ## JSON export -/

/-- One enumerable own property of the record, omitted when the field
is absent (`JSON.stringify` skips `undefined`-valued properties). -/
def optField (k : String) : Option String → List (String × JVal)
  | none => []
  | some s => [(k, JVal.str s)]

/-- The enumerable own properties of a `ListingData` record, in
declaration order, extension pairs last. -/
def listingJFields (L : ListingData) : List (String × JVal) :=
  optField "title" L.title ++ optField "description" L.description ++
  [("bulletPoints", JVal.arr (L.bulletPoints.map JVal.str))] ++
  optField "keywords" L.keywords ++ optField "price" L.price ++
  optField "category" L.category ++ optField "color" L.color ++
  optField "dimensions_size" L.dimensions_size ++ optField "weight" L.weight ++
  optField "primary_use" L.primary_use ++ optField "included_items" L.included_items ++
  L.extra

/-- Source `exportAsJSON`: the text of the downloaded blob,
`JSON.stringify(listing, null, 2)`.  The ambient environment is taken
(and ignored — the function reads no clock). -/
def exportAsJSON (listing : ListingData) (_env : JsEnv) : String :=
  jsonStringify (JVal.obj (listingJFields listing))

/-! ## CSV export (both source variants) -/

/-- Bullet rows of the first (extended) variant, mirroring
`forEach((point, index) => rows.push(`N,"text"`))` with the running
zero-based index. -/
def bulletRowsAux (index : Nat) : List String → List String
  | [] => []
  | p :: ps =>
    (natToString (index + 1) ++ ",\"" ++ escapeCSVs p ++ "\"") :: bulletRowsAux (index + 1) ps

/-- Bullet rows of the first (extended) variant:
`rows.push(`N,"text"`)` with the 1-based index. -/
def bulletRows (bps : List String) : List String := bulletRowsAux 0 bps

/-- Rows pushed by the first (extended) variant of `exportAsCSV`, in
push order. -/
def csvRows (listing : ListingData) : List String :=
  ["Field,Value",
   "Title,\"" ++ escapeCSV listing.title ++ "\"",
   "Category,\"" ++ escapeCSV listing.category ++ "\"",
   "Price,\"" ++ escapeCSV listing.price ++ "\""] ++
  (if truthy listing.color then
    ["Color,\"" ++ escapeCSV listing.color ++ "\""] else []) ++
  (if truthy listing.dimensions_size then
    ["Dimensions/Size,\"" ++ escapeCSV listing.dimensions_size ++ "\""] else []) ++
  (if truthy listing.weight then
    ["Weight,\"" ++ escapeCSV listing.weight ++ "\""] else []) ++
  (if truthy listing.primary_use then
    ["Primary Use/Purpose,\"" ++ escapeCSV listing.primary_use ++ "\""] else []) ++
  (if truthy listing.included_items then
    ["Included Items,\"" ++ escapeCSV listing.included_items ++ "\""] else []) ++
  ["Keywords,\"" ++ escapeCSV listing.keywords ++ "\"",
   "", "Description", "\"" ++ escapeCSV listing.description ++ "\"",
   "", "Bullet Points"] ++
  bulletRows listing.bulletPoints

/-- Source `exportAsCSV` (first variant): the text of the downloaded
blob, `rows.join("\n")`. -/
def exportAsCSV (listing : ListingData) (_env : JsEnv) : String :=
  String.intercalate "\n" (csvRows listing)

/-- Bullet rows of the second variant, mirroring its `forEach`. -/
def bulletRowsV2Aux (index : Nat) : List String → List String
  | [] => []
  | p :: ps =>
    ("\"" ++ natToString (index + 1) ++ ". " ++ escapeCSVs p ++ "\"") :: bulletRowsV2Aux (index + 1) ps

/-- Bullet rows of the second variant: `rows.push(`"N. text"`)`. -/
def bulletRowsV2 (bps : List String) : List String := bulletRowsV2Aux 0 bps

/-- Rows pushed by the second variant of `exportAsCSV` (after the
separator in the source file): `Keywords` is pushed before the
conditional `Color` row, the other optional fields do not exist, and
bullet rows use the `"N. text"` format. -/
def csvRowsV2 (listing : ListingData) : List String :=
  ["Field,Value",
   "Title,\"" ++ escapeCSV listing.title ++ "\"",
   "Category,\"" ++ escapeCSV listing.category ++ "\"",
   "Price,\"" ++ escapeCSV listing.price ++ "\"",
   "Keywords,\"" ++ escapeCSV listing.keywords ++ "\""] ++
  (if truthy listing.color then
    ["Color,\"" ++ escapeCSV listing.color ++ "\""] else []) ++
  ["", "Description", "\"" ++ escapeCSV listing.description ++ "\"",
   "", "Bullet Points"] ++
  bulletRowsV2 listing.bulletPoints

/-- Second source variant of `exportAsCSV`. -/
def exportAsCSVv2 (listing : ListingData) (_env : JsEnv) : String :=
  String.intercalate "\n" (csvRowsV2 listing)

/-! ## HTML export -/

/-- Static text of the HTML export template between the
interpolations, verbatim from the source template literal (chunk
10 is the text between consecutive conditional meta items). -/
def htmlPart0 : String :=
  "<!DOCTYPE html>\n<html lang=\"en\">\n<head>\n  <meta charset=\"UTF-8\">\n  <meta name=\"viewport\" content=\"width=device-width, initial-scale=1.0\">\n  <title>"

def htmlPart2 : String :=
  "</title>\n  <style>\n    * \x7b\n      margin: 0;\n      padding: 0;\n      box-sizing: border-box;\n    \x7d\n    body \x7b\n      font-family: -apple-system, BlinkMacSystemFont, \x27Segoe UI\x27, \x27Roboto\x27, \x27Oxygen\x27, \x27Ubuntu\x27, \x27Cantarell\x27, sans-serif;\n      line-height: 1.6;\n      color: #333;\n      background-color: #f5f5f5;\n      padding: 20px;\n    \x7d\n    .container \x7b\n      max-width: 900px;\n      margin: 0 auto;\n      background-color: white;\n      padding: 40px;\n      border-radius: 8px;\n      box-shadow: 0 2px 8px rgba(0,0,0,0.1);\n    \x7d\n    .header \x7b\n      border-bottom: 3px solid #2563eb;\n      padding-bottom: 20px;\n      margin-bottom: 30px;\n    \x7d\n    .header h1 \x7b\n      font-size: 28px;\n      margin-bottom: 10px;\n      color: #1f2937;\n    \x7d\n    .meta-info \x7b\n      display: grid;\n      grid-template-columns: repeat(auto-fit, minmax(200px, 1fr));\n      gap: 15px;\n      margin-bottom: 30px;\n      padding: 20px;\n      background-color: #f9fafb;\n      border-radius: 6px;\n    \x7d\n    .meta-item \x7b\n      display: flex;\n      flex-direction: column;\n    \x7d\n    .meta-label \x7b\n      font-weight: 600;\n      color: #6b7280;\n      font-size: 12px;\n      text-transform: uppercase;\n      margin-bottom: 4px;\n    \x7d\n    .meta-value \x7b\n      font-size: 16px;\n      color: #1f2937;\n    \x7d\n    .section \x7b\n      margin-bottom: 30px;\n    \x7d\n    .section h2 \x7b\n      font-size: 20px;\n      margin-bottom: 15px;\n      color: #1f2937;\n      border-left: 4px solid #2563eb;\n      padding-left: 12px;\n    \x7d\n    .description \x7b\n      background-color: #f9fafb;\n      padding: 15px;\n      border-radius: 6px;\n      line-height: 1.8;\n      color: #374151;\n    \x7d\n    .bullet-points \x7b\n      list-style: none;\n    \x7d\n    .bullet-points li \x7b\n      padding: 10px 0;\n      padding-left: 24px;\n      position: relative;\n      color: #374151;\n      line-height: 1.6;\n    \x7d\n    .bullet-points li:before \x7b\n      content: \"✓\";\n      position: absolute;\n      left: 0;\n      color: #2563eb;\n      font-weight: bold;\n    \x7d\n    .keywords \x7b\n      display: flex;\n      flex-wrap: wrap;\n      gap: 8px;\n    \x7d\n    .keyword-tag \x7b\n      display: inline-block;\n      background-color: #dbeafe;\n      color: #1e40af;\n      padding: 4px 12px;\n      border-radius: 20px;\n      font-size: 14px;\n    \x7d\n    .footer \x7b\n      margin-top: 40px;\n      padding-top: 20px;\n      border-top: 1px solid #e5e7eb;\n      text-align: center;\n      color: #9ca3af;\n      font-size: 12px;\n    \x7d\n    @media print \x7b\n      body \x7b\n        background-color: white;\n        padding: 0;\n      \x7d\n      .container \x7b\n        box-shadow: none;\n      \x7d\n    \x7d\n  </style>\n</head>\n<body>\n  <div class=\"container\">\n    <div class=\"header\">\n      <h1>"

def htmlPart4 : String :=
  "</h1>\n    </div>\n\n    <div class=\"meta-info\">\n      <div class=\"meta-item\">\n        <span class=\"meta-label\">Category</span>\n        <span class=\"meta-value\">"

def htmlPart6 : String :=
  "</span>\n      </div>\n      <div class=\"meta-item\">\n        <span class=\"meta-label\">Price</span>\n        <span class=\"meta-value\">$"

def htmlPart8 : String :=
  "</span>\n      </div>\n      "

def htmlPart10 : String :=
  "\n      "

def htmlPart18 : String :=
  "\n      <div class=\"meta-item\">\n        <span class=\"meta-label\">Generated On</span>\n        <span class=\"meta-value\">"

def htmlPart20 : String :=
  "</span>\n      </div>\n    </div>\n\n    <div class=\"section\">\n      <h2>Description</h2>\n      <div class=\"description\">"

def htmlPart22 : String :=
  "</div>\n    </div>\n\n    <div class=\"section\">\n      <h2>Key Features</h2>\n      <ul class=\"bullet-points\">\n        "

def htmlPart24 : String :=
  "\n      </ul>\n    </div>\n\n    <div class=\"section\">\n      <h2>Search Keywords</h2>\n      <div class=\"keywords\">\n        "

def htmlPart26 : String :=
  "\n      </div>\n    </div>\n\n    <div class=\"footer\">\n      <p>Amazon Listing Generated - "

def htmlPart28 : String :=
  "</p>\n    </div>\n  </div>\n</body>\n</html>"
/-- A conditional meta item of the HTML template:
`listing.X ? `<div class="meta-item">...` : ""`. -/
def metaItemOpt (label : String) (v : Option String) : String :=
  if truthy v then
    "<div class=\"meta-item\">\n        <span class=\"meta-label\">" ++ label ++
    "</span>\n        <span class=\"meta-value\">" ++ escapeHTML v ++
    "</span>\n      </div>"
  else ""

/-- Model of `.replace(/\n/g, "<br>")`. -/
def replaceNewlines (s : String) : String :=
  ⟨s.data.flatMap (fun c => if c == '\n' then "<br>".data else [c])⟩

/-- The `<li>` items of the Key Features section:
`listing.bulletPoints.map((point) => `<li>${escapeHTML(point)}</li>`)`. -/
def bulletItems (bps : List String) : List String :=
  bps.map (fun p => "<li>" ++ escapeHTMLs p ++ "</li>")

/-- The keyword pills of the Search Keywords section:
`keywords.split(",").map((keyword) =>
`<span class="keyword-tag">${escapeHTML(keyword.trim())}</span>`)`. -/
def keywordTags (kw : String) : List String :=
  (jsSplit ',' kw).map
    (fun k => "<span class=\"keyword-tag\">" ++ escapeHTMLs (jsTrim k) ++ "</span>")

/-- The document text assembled by the `exportAsHTML` template
literal, for a non-null `keywords` value `kw`. -/
def htmlAssemble (listing : ListingData) (kw : String) (env : JsEnv) : String :=
  htmlPart0 ++ escapeHTML listing.title ++ htmlPart2 ++
    escapeHTML listing.title ++ htmlPart4 ++ escapeHTML listing.category ++
    htmlPart6 ++ escapeHTML listing.price ++ htmlPart8 ++
    metaItemOpt "Dominant Color" listing.color ++ htmlPart10 ++
    metaItemOpt "Dimensions/Size" listing.dimensions_size ++ htmlPart10 ++
    metaItemOpt "Weight" listing.weight ++ htmlPart10 ++
    metaItemOpt "Primary Use/Purpose" listing.primary_use ++ htmlPart10 ++
    metaItemOpt "Included Items" listing.included_items ++ htmlPart18 ++
    env.dateStr ++ htmlPart20 ++
    replaceNewlines (escapeHTML listing.description) ++ htmlPart22 ++
    String.join (bulletItems listing.bulletPoints) ++ htmlPart24 ++
    String.join (keywordTags kw) ++ htmlPart26 ++
    env.dateTimeStr ++ htmlPart28

/-- Source `exportAsHTML` (first variant): the text of the downloaded
blob.  Calling `.split` on an absent `keywords` field throws a
`TypeError` in JavaScript, modelled by `none`; every other field is
fed through null-coercing escape helpers and cannot throw. -/
def exportAsHTML (listing : ListingData) (env : JsEnv) : Option String :=
  match listing.keywords with
  | none => none
  | some kw => some (htmlAssemble listing kw env)

/-! ## PDF export: DOM attach/detach discipline

`exportAsPDF` (first variant) drives the external html2pdf library.
Its effect on the shared document tree is modelled by the list of
attached node identifiers.  The function mirrors the source
control flow: `loadHtml2Pdf` may reject before the temporary element
exists; after `document.body.appendChild(tempElement)` the conversion
may throw; the `finally` block removes the element whenever
`tempElement` is non-null and attached.  The rasterized PDF bytes
themselves are outside the model. -/

/-- The shared mutable document tree, as the list of attached node
identifiers in attachment order. -/
structure DomState where
  attached : List Nat

/-- A fresh identifier for `createPDFTemplate`'s new element: larger
than every node currently in the document. -/
def freshNodeId (st : DomState) : Nat := st.attached.foldr max 0 + 1

/-- Outcome of `exportAsPDF`: resolved, or rejected with the thrown
error message. -/
inductive PdfResult where
  | ok : PdfResult
  | error : String → PdfResult

/-- Source `exportAsPDF` (first variant) as a state transformer on the
document tree.  `loadOk` is whether the html2pdf library loads and
initializes; `convOk` is whether `html2pdf().set(...).from(...).save()`
resolves. -/
def exportAsPDF (loadOk convOk : Bool) (st : DomState) : DomState × PdfResult :=
  if loadOk then
    -- tempElement = createPDFTemplate(listing); document.body.appendChild(tempElement)
    let id := freshNodeId st
    let st₁ : DomState := ⟨st.attached ++ [id]⟩
    if convOk then
      -- save resolved; finally: document.body.removeChild(tempElement)
      (⟨st₁.attached.erase id⟩, PdfResult.ok)
    else
      -- conversion threw; catch re-throws; finally still removes the element
      (⟨st₁.attached.erase id⟩, PdfResult.error "Failed to generate PDF. Please try again.")
  else
    -- loadHtml2Pdf rejected: tempElement is still null, finally removes nothing
    (st, PdfResult.error "Failed to load html2pdf library from CDN")

/-- Substring test on character lists (executable). -/
def containsSub (pat : List Char) : List Char → Bool
  | [] => pat.isEmpty
  | c :: t => pat.isPrefixOf (c :: t) || containsSub pat t

/-! ## Properties of the escape helpers -/

/-- Decode one HTML entity after an ampersand. -/
def unescAfterAmp : List Char → Option (Char × List Char)
  | 'a' :: 'm' :: 'p' :: ';' :: cs => some ('&', cs)
  | 'l' :: 't' :: ';' :: cs => some ('<', cs)
  | 'g' :: 't' :: ';' :: cs => some ('>', cs)
  | 'n' :: 'b' :: 's' :: 'p' :: ';' :: cs => some (Char.ofNat 160, cs)
  | _ => none

theorem unescAfterAmp_length (cs : List Char) (p : Char × List Char)
    (h : unescAfterAmp cs = some p) : p.2.length < cs.length := by
  rw [unescAfterAmp.eq_def] at h
  split at h
  · cases h
    simp only [List.length_cons]
    omega
  · cases h
    simp only [List.length_cons]
    omega
  · cases h
    simp only [List.length_cons]
    omega
  · cases h
    simp only [List.length_cons]
    omega
  · cases h

/-- Inverse of DOM text-node escaping on its named entities. -/
def unescHTML : List Char → List Char
  | [] => []
  | c :: cs =>
    if c == '&' then
      match h : unescAfterAmp cs with
      | some dcs => dcs.1 :: unescHTML dcs.2
      | none => c :: unescHTML cs
    else c :: unescHTML cs
termination_by l => l.length
decreasing_by
  · have := unescAfterAmp_length cs dcs h
    simp only [List.length_cons]
    omega
  · simp
  · simp

theorem unescHTML_cons_ne (c : Char) (rest : List Char) (h : ¬c = '&') :
    unescHTML (c :: rest) = c :: unescHTML rest := by
  rw [unescHTML.eq_def]
  simp [h]

theorem unescHTML_cons_amp (rest : List Char) (p : Char × List Char)
    (h : unescAfterAmp rest = some p) :
    unescHTML ('&' :: rest) = p.1 :: unescHTML p.2 := by
  rw [unescHTML.eq_def]
  simp only [show (('&' : Char) == '&') = true from rfl, if_true]
  split
  · rename_i p' h'
    rw [h] at h'
    cases h'
    rfl
  · rename_i h'
    rw [h] at h'
    cases h'

theorem unescHTML_escHChar (cs : List Char) :
    unescHTML (cs.flatMap escHChar) = cs := by
  induction cs with
  | nil => simp [unescHTML]
  | cons c cs ih =>
    rw [List.flatMap_cons]
    by_cases h1 : c = '&'
    · subst h1
      rw [show escHChar '&' = '&' :: 'a' :: 'm' :: 'p' :: [';'] from rfl]
      simp only [List.cons_append, List.nil_append]
      rw [unescHTML_cons_amp ('a' :: 'm' :: 'p' :: ';' :: cs.flatMap escHChar) ('&', cs.flatMap escHChar) rfl, ih]
    · by_cases h2 : c = '<'
      · subst h2
        rw [show escHChar '<' = '&' :: 'l' :: 't' :: [';'] from rfl]
        simp only [List.cons_append, List.nil_append]
        rw [unescHTML_cons_amp ('l' :: 't' :: ';' :: cs.flatMap escHChar) ('<', cs.flatMap escHChar) rfl, ih]
      · by_cases h3 : c = '>'
        · subst h3
          rw [show escHChar '>' = '&' :: 'g' :: 't' :: [';'] from rfl]
          simp only [List.cons_append, List.nil_append]
          rw [unescHTML_cons_amp ('g' :: 't' :: ';' :: cs.flatMap escHChar) ('>', cs.flatMap escHChar) rfl, ih]
        · by_cases h4 : c = '\xa0'
          · subst h4
            rw [show escHChar '\xa0' = '&' :: 'n' :: 'b' :: 's' :: 'p' :: [';'] from rfl]
            simp only [List.cons_append, List.nil_append]
            rw [unescHTML_cons_amp ('n' :: 'b' :: 's' :: 'p' :: ';' :: cs.flatMap escHChar) (Char.ofNat 160, cs.flatMap escHChar) rfl, ih]
          · have hesc : escHChar c = [c] := by
              simp [escHChar, h1, h2, h3, h4]
            rw [hesc]
            simp only [List.cons_append, List.nil_append]
            rw [unescHTML_cons_ne c _ h1, ih]

theorem escHChar_no_angle (c x : Char) (hx : x ∈ escHChar c) :
    ¬(x = '<' ∨ x = '>') := by
  by_cases h1 : c = '&'
  · subst h1
    rw [show escHChar '&' = ['&', 'a', 'm', 'p', ';'] from rfl] at hx
    simp only [List.mem_cons, List.not_mem_nil, or_false] at hx
    rcases hx with rfl | rfl | rfl | rfl | rfl <;> decide
  · by_cases h2 : c = '<'
    · subst h2
      rw [show escHChar '<' = ['&', 'l', 't', ';'] from rfl] at hx
      simp only [List.mem_cons, List.not_mem_nil, or_false] at hx
      rcases hx with rfl | rfl | rfl | rfl <;> decide
    · by_cases h3 : c = '>'
      · subst h3
        rw [show escHChar '>' = ['&', 'g', 't', ';'] from rfl] at hx
        simp only [List.mem_cons, List.not_mem_nil, or_false] at hx
        rcases hx with rfl | rfl | rfl | rfl <;> decide
      · by_cases h4 : c = '\xa0'
        · subst h4
          rw [show escHChar '\xa0' = ['&', 'n', 'b', 's', 'p', ';'] from rfl] at hx
          simp only [List.mem_cons, List.not_mem_nil, or_false] at hx
          rcases hx with rfl | rfl | rfl | rfl | rfl | rfl <;> decide
        · have hesc : escHChar c = [c] := by
            simp [escHChar, h1, h2, h3, h4]
          rw [hesc] at hx
          simp at hx
          subst hx
          rintro (rfl | rfl)
          · exact h2 rfl
          · exact h3 rfl

theorem escapeHTMLs_no_angle (s : String) :
    '<' ∉ (escapeHTMLs s).data ∧ '>' ∉ (escapeHTMLs s).data := by
  constructor
  · intro hmem
    have : (escapeHTMLs s).data = s.data.flatMap escHChar := rfl
    rw [this] at hmem
    rcases List.mem_flatMap.1 hmem with ⟨c, _, hx⟩
    exact escHChar_no_angle c '<' hx (Or.inl rfl)
  · intro hmem
    have : (escapeHTMLs s).data = s.data.flatMap escHChar := rfl
    rw [this] at hmem
    rcases List.mem_flatMap.1 hmem with ⟨c, _, hx⟩
    exact escHChar_no_angle c '>' hx (Or.inr rfl)

theorem escCSVChar_count_quote (cs : List Char) :
    (cs.flatMap escCSVChar).count '"' = 2 * cs.count '"' := by
  induction cs with
  | nil => rfl
  | cons c cs ih =>
    rw [List.flatMap_cons, List.count_append, ih]
    by_cases h : c = '"'
    · subst h
      rw [show escCSVChar '"' = ['"', '"'] from rfl]
      simp [List.count_cons]
      omega
    · have hb : (c == '"') = false := by simp [h]
      rw [show escCSVChar c = if c == '"' then ['"', '"'] else [c] from rfl, hb]
      simp [List.count_cons, List.count_singleton, hb]

theorem escCSVChar_count_other (d : Char) (hd : (d == '"') = false) (cs : List Char) :
    (cs.flatMap escCSVChar).count d = cs.count d := by
  induction cs with
  | nil => rfl
  | cons c cs ih =>
    rw [List.flatMap_cons, List.count_append, ih]
    by_cases h : c = '"'
    · subst h
      rw [show escCSVChar '"' = ['"', '"'] from rfl]
      have : ('"' == d) = false := by
        cases hx : '"' == d
        · rfl
        · exfalso
          have : '"' = d := by simpa [beq_iff_eq] using hx
          subst this
          simp at hd
      simp [List.count_cons, this]
    · rw [show escCSVChar c = if c == '"' then ['"', '"'] else [c] from rfl,
        (by simp [h] : (c == '"') = false)]
      simp [List.count_cons]
      omega

theorem escCSVChar_filter (cs : List Char) :
    (cs.flatMap escCSVChar).filter (fun c => !(c == '"')) =
      cs.filter (fun c => !(c == '"')) := by
  induction cs with
  | nil => rfl
  | cons c cs ih =>
    rw [List.flatMap_cons, List.filter_append, ih]
    by_cases h : c = '"'
    · subst h
      rw [show escCSVChar '"' = ['"', '"'] from rfl]
      simp [List.filter_cons]
    · have hb : (c == '"') = false := by simp [h]
      rw [show escCSVChar c = if c == '"' then ['"', '"'] else [c] from rfl, hb]
      simp [List.filter_cons, hb]

/-! ## Shape of the CSV rows -/

/-- A CSV row that reports the Color field. -/
def isColorRow (r : String) : Bool := "Color,".data.isPrefixOf r.data

/-- A CSV row that reports the Keywords field. -/
def isKeywordsRow (r : String) : Bool := "Keywords,".data.isPrefixOf r.data

/-- Whether every Color row of a CSV row list comes before every
Keywords row (the claimed "the Keywords row always comes after every
optional row", instantiated to the Color row). -/
def keywordsAfterColor (rows : List String) : Bool :=
  match rows.findIdx? isColorRow, rows.findIdx? isKeywordsRow with
  | some i, some j => decide (i < j)
  | _, _ => true

theorem isColorRow_append (p x : String) (c : Char) (t : List Char)
    (hp : p.data = c :: t) (hc : ('C' == c) = false) : isColorRow (p ++ x) = false := by
  simp only [isColorRow, String.data_append, hp, List.cons_append]
  simp [List.isPrefixOf, hc]

theorem isColorRow_bulletRowsAux (k : Nat) (bps : List String) :
    ∀ r ∈ bulletRowsAux k bps, isColorRow r = false := by
  induction bps generalizing k with
  | nil => intro r hr; cases hr
  | cons p ps ih =>
    intro r hr
    rcases List.mem_cons.1 hr with h | h
    · subst h
      rcases hn : natToChars (k + 1) with _ | ⟨c, t⟩
      · exact absurd hn (natToChars_ne_nil (k + 1))
      · have hcd : c.isDigit = true := by
          refine natToChars_digits (k + 1) c ?_
          rw [hn]
          exact List.mem_cons_self c t
        have hC : ('C' == c) = false := by
          cases hx : 'C' == c
          · rfl
          · exfalso
            have : 'C' = c := by simpa [beq_iff_eq] using hx
            subst this
            simp [Char.isDigit] at hcd
        rw [show natToString (k + 1) ++ ",\"" ++ escapeCSVs p ++ "\"" =
          natToString (k + 1) ++ (",\"" ++ (escapeCSVs p ++ "\"")) by
            simp [String.append_assoc]]
        exact isColorRow_append (natToString (k + 1)) _ c t hn hC
    · exact ih (k + 1) r h

theorem filter_isColorRow_bulletRows (k : Nat) (bps : List String) :
    (bulletRowsAux k bps).filter isColorRow = [] := by
  rw [List.filter_eq_nil_iff]
  intro r hr
  simp [isColorRow_bulletRowsAux k bps r hr]

/-- The Color rows of the extended-variant CSV: none when the field is
absent or empty, exactly the one pushed row otherwise. -/
theorem csvRows_filter_color (L : ListingData) :
    (csvRows L).filter isColorRow =
      if truthy L.color then ["Color,\"" ++ escapeCSV L.color ++ "\""] else [] := by
  have hT : ∀ x y : String, isColorRow ("Title,\"" ++ x ++ y) = false := by
    intro x y
    simp [isColorRow, String.data_append, List.isPrefixOf]
  have hC : ∀ x y : String, isColorRow ("Category,\"" ++ x ++ y) = false := by
    intro x y
    simp [isColorRow, String.data_append, List.isPrefixOf]
  have hP : ∀ x y : String, isColorRow ("Price,\"" ++ x ++ y) = false := by
    intro x y
    simp [isColorRow, String.data_append, List.isPrefixOf]
  have hD : ∀ x y : String, isColorRow ("Dimensions/Size,\"" ++ x ++ y) = false := by
    intro x y
    simp [isColorRow, String.data_append, List.isPrefixOf]
  have hW : ∀ x y : String, isColorRow ("Weight,\"" ++ x ++ y) = false := by
    intro x y
    simp [isColorRow, String.data_append, List.isPrefixOf]
  have hU : ∀ x y : String, isColorRow ("Primary Use/Purpose,\"" ++ x ++ y) = false := by
    intro x y
    simp [isColorRow, String.data_append, List.isPrefixOf]
  have hI : ∀ x y : String, isColorRow ("Included Items,\"" ++ x ++ y) = false := by
    intro x y
    simp [isColorRow, String.data_append, List.isPrefixOf]
  have hK : ∀ x y : String, isColorRow ("Keywords,\"" ++ x ++ y) = false := by
    intro x y
    simp [isColorRow, String.data_append, List.isPrefixOf]
  have hQ : ∀ x y : String, isColorRow ("\"" ++ x ++ y) = false := by
    intro x y
    simp [isColorRow, String.data_append, List.isPrefixOf]
  have hColor : ∀ x y : String, isColorRow ("Color,\"" ++ x ++ y) = true := by
    intro x y
    simp [isColorRow, String.data_append, List.isPrefixOf]
  simp only [csvRows, List.filter_append, List.filter_cons, List.filter_nil,
    hT, hC, hP, hK, hQ, hColor,
    show isColorRow "Field,Value" = false from by decide,
    show isColorRow "" = false from by decide,
    show isColorRow "Description" = false from by decide,
    show isColorRow "Bullet Points" = false from by decide,
    Bool.false_eq_true, if_false, if_true, bulletRows, filter_isColorRow_bulletRows,
    List.append_nil, List.nil_append]
  by_cases h1 : truthy L.color <;>
    by_cases h2 : truthy L.dimensions_size <;>
      by_cases h3 : truthy L.weight <;>
        by_cases h4 : truthy L.primary_use <;>
          by_cases h5 : truthy L.included_items <;>
            simp [h1, h2, h3, h4, h5, hD, hW, hU, hI, hColor]

/-- Optional rows as §4.2 of the spec lists them: one labelled row per
present-and-non-empty optional field, in the spec's label order. -/
def optionalCSVSpecRows (L : ListingData) : List String :=
  ([("Color", L.color), ("Dimensions/Size", L.dimensions_size), ("Weight", L.weight),
    ("Primary Use/Purpose", L.primary_use),
    ("Included Items", L.included_items)]).filterMap
    (fun lv => if truthy lv.2 then some (lv.1 ++ ",\"" ++ escapeCSV lv.2 ++ "\"") else none)

/-- The CSV row order exactly as the spec's §4.2 enumerates it
(items 1-12): header; Title; Category; Price; the optional rows; the
Keywords row; blank; `Description`; the quoted description; blank;
`Bullet Points`; one row per bullet. -/
def specCSVRowOrder (L : ListingData) : List String :=
  ["Field,Value"] ++
  ["Title,\"" ++ escapeCSV L.title ++ "\""] ++
  ["Category,\"" ++ escapeCSV L.category ++ "\""] ++
  ["Price,\"" ++ escapeCSV L.price ++ "\""] ++
  optionalCSVSpecRows L ++
  ["Keywords,\"" ++ escapeCSV L.keywords ++ "\""] ++
  [""] ++ ["Description"] ++ ["\"" ++ escapeCSV L.description ++ "\""] ++
  [""] ++ ["Bullet Points"] ++
  bulletRows L.bulletPoints

theorem bulletRowsAux_get? (bps : List String) : ∀ (k i : Nat),
    (bulletRowsAux k bps).get? i =
      (bps.get? i).map (fun p => natToString (k + i + 1) ++ ",\"" ++ escapeCSVs p ++ "\"") := by
  induction bps with
  | nil =>
    intro k i
    simp [bulletRowsAux]
  | cons p ps ih =>
    intro k i
    cases i with
    | zero => simp [bulletRowsAux]
    | succ i =>
      simp only [bulletRowsAux, List.get?_cons_succ]
      rw [ih (k + 1) i]
      simp only [show k + 1 + i + 1 = k + (i + 1) + 1 from by omega]

theorem bulletRowsV2Aux_get? (bps : List String) : ∀ (k i : Nat),
    (bulletRowsV2Aux k bps).get? i =
      (bps.get? i).map
        (fun p => "\"" ++ natToString (k + i + 1) ++ ". " ++ escapeCSVs p ++ "\"") := by
  induction bps with
  | nil =>
    intro k i
    simp [bulletRowsV2Aux]
  | cons p ps ih =>
    intro k i
    cases i with
    | zero => simp [bulletRowsV2Aux]
    | succ i =>
      simp only [bulletRowsV2Aux, List.get?_cons_succ]
      rw [ih (k + 1) i]
      simp only [show k + 1 + i + 1 = k + (i + 1) + 1 from by omega]

theorem bulletRowsAux_length (bps : List String) : ∀ k : Nat,
    (bulletRowsAux k bps).length = bps.length := by
  induction bps with
  | nil => intro k; rfl
  | cons p ps ih =>
    intro k
    simp [bulletRowsAux, ih]

theorem bulletRowsV2Aux_length (bps : List String) : ∀ k : Nat,
    (bulletRowsV2Aux k bps).length = bps.length := by
  induction bps with
  | nil => intro k; rfl
  | cons p ps ih =>
    intro k
    simp [bulletRowsV2Aux, ih]

/-! ## PDF cleanup lemmas -/

theorem le_foldr_max (l : List Nat) : ∀ x ∈ l, x ≤ l.foldr max 0 := by
  induction l with
  | nil =>
    intro x hx
    cases hx
  | cons a l ih =>
    intro x hx
    rcases List.mem_cons.1 hx with h | h
    · subst h
      exact le_max_left _ _
    · exact le_trans (ih x h) (le_max_right _ _)

theorem freshNodeId_not_mem (st : DomState) : freshNodeId st ∉ st.attached := by
  intro h
  have hle := le_foldr_max st.attached _ h
  simp only [freshNodeId] at hle
  omega

theorem append_singleton_erase (l : List Nat) (a : Nat) (h : a ∉ l) :
    (l ++ [a]).erase a = l := by
  rw [List.erase_append_right _ h, List.erase_cons_head, List.append_nil]

/-! ## Concrete fixtures used by the claims -/

def mugListing : ListingData :=
  { title := some "Mug", description := some "Nice mug", bulletPoints := ["Durable"],
    keywords := some "mug,kitchen", price := some "9.99", category := some "Home" }

def scriptListing : ListingData :=
  { mugListing with title := some "<script>alert(1)</script>" }

def quoteTitleListing : ListingData :=
  { mugListing with title := some "He said \"hi\"" }

def quoteDescListing : ListingData :=
  { mugListing with description := some "He said \"hi\"" }

def colorListing : ListingData :=
  { mugListing with color := some "Red" }

def nullKeywordsListing : ListingData :=
  { mugListing with keywords := none }

def nullFieldsListing : ListingData :=
  { title := none, description := none, bulletPoints := [], keywords := none,
    price := none, category := none }

def nullFieldsKwListing : ListingData :=
  { nullFieldsListing with keywords := some "" }

def envA : JsEnv := { dateStr := "1/2/2026", dateTimeStr := "1/2/2026, 3:04:05 PM" }

def envB : JsEnv := { dateStr := "11/22/2026", dateTimeStr := "1/2/2026, 3:04:05 PM" }

/-! ## The claims -/

set_option maxRecDepth 200000 in
/-- C1 (amended): every text field interpolated into the HTML export
passes through `escapeHTML`, which entity-encodes `&`, `<`, `>` (and
U+00A0) but leaves quote characters unchanged: the escaped text
contains no angle bracket, escaping is lossless (so `&` really is
encoded), and for the title `<script>alert(1)</script>` the whole
exported document contains no literal `<script>` substring. -/
theorem C1_html_escaping :
    (∀ s : String, '<' ∉ (escapeHTMLs s).data ∧ '>' ∉ (escapeHTMLs s).data) ∧
    (∀ s : String, unescHTML (escapeHTMLs s).data = s.data) ∧
    (exportAsHTML scriptListing envA).map
      (fun doc => containsSub "<script>".data doc.data) = some false := by
  refine ⟨escapeHTMLs_no_angle, ?_, ?_⟩
  · intro s
    exact unescHTML_escHChar s.data
  · decide

set_option maxRecDepth 200000 in
/-- C1 counterexample: the claim says quote characters are
entity-encoded before insertion, but `escapeHTML` (DOM text-node
serialization) passes double quotes through verbatim, and the raw
quotes of a title reach the exported document. -/
theorem C1_counterexample :
    escapeHTML (some "He said \"hi\"") = "He said \"hi\"" ∧
    (exportAsHTML quoteTitleListing envA).map
      (fun doc => containsSub "He said \"hi\"".data doc.data) = some true := by
  constructor
  · rfl
  · decide

/-- C2: for every ListingData record, parsing the JSON text produced by
`exportAsJSON` yields exactly the record's own enumerable fields —
including extension key-value pairs — with no field filtered out; and
the text is pretty-printed with two-space indentation (shown on a
concrete listing). -/
theorem C2_json_round_trip :
    (∀ (L : ListingData) (env : JsEnv),
      jsonParse (exportAsJSON L env) = some (JVal.obj (listingJFields L))) ∧
    exportAsJSON mugListing envA =
      "\x7b\n  \"title\": \"Mug\",\n  \"description\": \"Nice mug\",\n  \"bulletPoints\": [\n    \"Durable\"\n  ],\n  \"keywords\": \"mug,kitchen\",\n  \"price\": \"9.99\",\n  \"category\": \"Home\"\n\x7d" := by
  constructor
  · intro L env
    exact jsonParse_jsonStringify (JVal.obj (listingJFields L))
  · rfl

/-- C3 (amended): the first (extended) variant of `exportAsCSV`
produces exactly the spec's §4.2 row order — header, Title, Category,
Price, the present optional rows in spec order, Keywords, blank,
Description rows, blank, Bullet Points rows. -/
theorem C3_csv_row_order (L : ListingData) : csvRows L = specCSVRowOrder L := by
  simp only [csvRows, specCSVRowOrder, optionalCSVSpecRows, List.filterMap_cons,
    List.filterMap_nil]
  by_cases h1 : truthy L.color <;>
    by_cases h2 : truthy L.dimensions_size <;>
      by_cases h3 : truthy L.weight <;>
        by_cases h4 : truthy L.primary_use <;>
          by_cases h5 : truthy L.included_items <;>
            simp [h1, h2, h3, h4, h5]

/-- C3 counterexample: the second `exportAsCSV` variant in the source
pushes the Keywords row before the conditional Color row, so on a
listing with a colour the Keywords row does NOT come after every
optional row, and its output is not the spec's row order. -/
theorem C3_counterexample :
    keywordsAfterColor (csvRowsV2 colorListing) = false ∧
    keywordsAfterColor (csvRows colorListing) = true ∧
    csvRowsV2 colorListing ≠ specCSVRowOrder colorListing := by
  refine ⟨by decide, by decide, by decide⟩

/-- C4: in both source variants the number of bullet rows equals the
number of bullet points and the i-th row carries the 1-based index
i+1 with the i-th bullet's text, in order; and the two variants emit
incompatible bullet-row formats (`N,"text"` vs `"N. text"`), so the
two CSV exports are not extensionally equal. -/
theorem C4_bullet_rows :
    (∀ (bps : List String) (i : Nat),
      (bulletRows bps).length = bps.length ∧
      (bulletRowsV2 bps).length = bps.length ∧
      (bulletRows bps).get? i =
        (bps.get? i).map (fun p => natToString (i + 1) ++ ",\"" ++ escapeCSVs p ++ "\"") ∧
      (bulletRowsV2 bps).get? i =
        (bps.get? i).map
          (fun p => "\"" ++ natToString (i + 1) ++ ". " ++ escapeCSVs p ++ "\"")) ∧
    bulletRows ["Durable"] = ["1,\"Durable\""] ∧
    bulletRowsV2 ["Durable"] = ["\"1. Durable\""] ∧
    exportAsCSV mugListing envA ≠ exportAsCSVv2 mugListing envA := by
  refine ⟨?_, rfl, rfl, by decide⟩
  intro bps i
  refine ⟨bulletRowsAux_length bps 0, bulletRowsV2Aux_length bps 0, ?_, ?_⟩
  · have h := bulletRowsAux_get? bps 0 i
    simpa using h
  · have h := bulletRowsV2Aux_get? bps 0 i
    simpa using h

/-- C5: `escapeCSV` doubles every embedded double quote and applies no
other escaping — quote count doubles, every non-quote character
(commas and newlines included) is preserved — and for the description
`He said "hi"` the CSV output contains `""hi""`. -/
theorem C5_csv_quote_escaping :
    (∀ s : String,
      (escapeCSVs s).data.count '"' = 2 * s.data.count '"' ∧
      (escapeCSVs s).data.filter (fun c => !(c == '"')) =
        s.data.filter (fun c => !(c == '"')) ∧
      (escapeCSVs s).data.count ',' = s.data.count ',' ∧
      (escapeCSVs s).data.count '\n' = s.data.count '\n') ∧
    escapeCSVs "He said \"hi\"" = "He said \"\"hi\"\"" ∧
    containsSub "\"\"hi\"\"".data (exportAsCSV quoteDescListing envA).data = true := by
  refine ⟨?_, rfl, by decide⟩
  intro s
  have hdata : (escapeCSVs s).data = s.data.flatMap escCSVChar := rfl
  exact ⟨by rw [hdata]; exact escCSVChar_count_quote s.data,
    by rw [hdata]; exact escCSVChar_filter s.data,
    by rw [hdata]; exact escCSVChar_count_other ',' (by decide) s.data,
    by rw [hdata]; exact escCSVChar_count_other '\n' (by decide) s.data⟩

/-- C6: when the color field is absent or empty, no Color row appears
in the CSV output and the HTML meta item is empty; when it is present
and non-empty, exactly one Color row appears carrying the (escaped)
value, and the HTML meta item carries the (escaped) value. -/
theorem C6_optional_field_omission (L : ListingData) :
    (truthy L.color = false →
      (csvRows L).filter isColorRow = [] ∧
      metaItemOpt "Dominant Color" L.color = "") ∧
    (∀ c : String, L.color = some c → c ≠ "" →
      (csvRows L).filter isColorRow = ["Color,\"" ++ escapeCSVs c ++ "\""] ∧
      metaItemOpt "Dominant Color" L.color =
        "<div class=\"meta-item\">\n        <span class=\"meta-label\">" ++
        "Dominant Color" ++
        "</span>\n        <span class=\"meta-value\">" ++ escapeHTMLs c ++
        "</span>\n      </div>") := by
  constructor
  · intro h
    rw [csvRows_filter_color, h]
    simp [metaItemOpt, h]
  · intro c hc hne
    have ht' : truthy (some c) = true := by
      simp only [truthy]
      cases he : c.isEmpty
      · rfl
      · exact absurd ((String.isEmpty_iff _).1 he) hne
    have ht : truthy L.color = true := by
      rw [hc]
      exact ht'
    rw [csvRows_filter_color, ht, hc]
    simp [metaItemOpt, ht', escapeCSV, escapeHTML]

/-- Witness for C6 at concrete listings: a red mug gets exactly one
Color row; a mug without a colour gets none and an empty meta item. -/
theorem C6_witness :
    (csvRows colorListing).filter isColorRow = ["Color,\"Red\""] ∧
    (csvRows mugListing).filter isColorRow = [] ∧
    metaItemOpt "Dominant Color" mugListing.color = "" := by
  refine ⟨?_, ?_, ?_⟩
  · have h := ((C6_optional_field_omission colorListing).2 "Red" rfl (by decide)).1
    rw [h]
    decide
  · exact ((C6_optional_field_omission mugListing).1 rfl).1
  · exact ((C6_optional_field_omission mugListing).1 rfl).2

/-- C7: the keyword section renders one tag per comma-separated
segment, each trimmed, empty segments included; `"a, b ,c"` yields
exactly the three tags `a`, `b`, `c`. -/
theorem C7_keyword_splitting :
    keywordTags "a, b ,c" =
      ["<span class=\"keyword-tag\">a</span>",
       "<span class=\"keyword-tag\">b</span>",
       "<span class=\"keyword-tag\">c</span>"] ∧
    (∀ kw : String, (keywordTags kw).length = kw.data.count ',' + 1) := by
  constructor
  · rfl
  · intro kw
    simp [keywordTags, jsSplit_length]

/-- C8 (code bug evidence): with a null/undefined `keywords` field,
`exportAsHTML` throws (`listing.keywords.split` on a non-string),
modelled as `none` — it does not coerce to the empty string; the CSV
export on an all-null record does coerce every required field to the
empty string, and the HTML export succeeds whenever `keywords` is a
string, even with every other required field null. -/
theorem C8_missing_field_behaviour :
    exportAsHTML nullKeywordsListing envA = none ∧
    exportAsCSV nullFieldsListing envA =
      "Field,Value\nTitle,\"\"\nCategory,\"\"\nPrice,\"\"\nKeywords,\"\"\n\nDescription\n\"\"\n\nBullet Points" ∧
    (exportAsHTML nullFieldsKwListing envA).isSome = true := by
  refine ⟨rfl, by decide, rfl⟩

/-- C9: on every exit path of `exportAsPDF` — success, library-load
failure, conversion failure — the document tree ends exactly as it
began: the temporary fragment never leaks; and the export resolves
exactly when both the library loads and the conversion succeeds. -/
theorem C9_pdf_cleanup (loadOk convOk : Bool) (st : DomState) :
    (exportAsPDF loadOk convOk st).1 = st ∧
    ((exportAsPDF loadOk convOk st).2 = PdfResult.ok ↔
      loadOk = true ∧ convOk = true) := by
  cases st with
  | mk l =>
    have hf := freshNodeId_not_mem ⟨l⟩
    cases loadOk <;> cases convOk <;>
      simp [exportAsPDF, append_singleton_erase _ _ hf]

/-- C10: the JSON and CSV encoders are deterministic functions of the
record alone — the ambient clock never affects their output — while
the HTML export embeds the current date and time and so differs
across environments. -/
theorem C10_export_determinism :
    (∀ (L : ListingData) (e₁ e₂ : JsEnv), exportAsJSON L e₁ = exportAsJSON L e₂) ∧
    (∀ (L : ListingData) (e₁ e₂ : JsEnv), exportAsCSV L e₁ = exportAsCSV L e₂) ∧
    (∃ (L : ListingData) (e₁ e₂ : JsEnv), exportAsHTML L e₁ ≠ exportAsHTML L e₂) := by
  refine ⟨fun L e₁ e₂ => rfl, fun L e₁ e₂ => rfl, ⟨mugListing, envA, envB, ?_⟩⟩
  intro h
  have h1 : exportAsHTML mugListing envA =
      some (htmlAssemble mugListing "mug,kitchen" envA) := rfl
  have h2 : exportAsHTML mugListing envB =
      some (htmlAssemble mugListing "mug,kitchen" envB) := rfl
  rw [h1, h2] at h
  have h3 := Option.some.inj h
  have h4 := congrArg String.length h3
  simp only [htmlAssemble, String.length_append] at h4
  have e1 : envA.dateStr.length = 8 := rfl
  have e2 : envB.dateStr.length = 10 := rfl
  have e3 : envA.dateTimeStr.length = envB.dateTimeStr.length := rfl
  omega
